import Mathlib

/-!
# polygate: configuration bootstrap, defaulting and validation

A shallow embedding of `configuration.go`.

* Go strings are `String`; `len(s)` is the byte length `s.utf8ByteSize`.
* Unsigned fields (`uint8`, `uint16`, `uint32`, `uint64`) are `Nat`, signed
  fields (`int`, `int64`) are `Int`. The code only compares them with `0`,
  so no wrap-around arithmetic is involved.
* A call to `log.Fatal`/`log.Fatalf` ends the process: a pass returns
  `Except Fatal _`, the error naming the call that was reached together
  with the indices it prints.
* A call to `log.Warnf` is recorded in a returned list of `Warning`s. Whether
  the logger prints it depends on the level the logger is set to, which this
  file does not set: `emitted` gives what is printed at a level.
* A `for i := range xs` loop is a recursion over the list carrying the index.
-/

namespace Polygate

/-! ## Data model -/

/-- Levels of `logrus` that `loadParameters` can select. -/
inductive Level where
  | DebugLevel
  | InfoLevel
  | WarnLevel
  | ErrorLevel
deriving DecidableEq

/-- The `Parameters` struct. -/
structure Parameters where
  enableHotReload : Bool
  logLevel : Level
  configurationFile : String
deriving DecidableEq

/-- The `ConfigurationMethodExpose` struct. -/
structure ConfigurationMethodExpose where
  Pattern : String
  Name : String
  Capped : Nat
  Stream : String
  TimeoutWaitForNext : String
deriving DecidableEq

/-- The anonymous struct of `Consumer.Retry`. -/
structure Retry where
  Limit : Int
  PageSize : Int
  Deadline : String
deriving DecidableEq

/-- The anonymous struct of `ConfigurationServiceExpose.Consumer`. -/
structure Consumer where
  Concurrency : Nat
  Block : String
  Retry : Retry
deriving DecidableEq

/-- The anonymous struct of `ConfigurationServiceExpose.Client`. -/
structure ServiceClient where
  Address : String
  Port : Nat
deriving DecidableEq

/-- The `ConfigurationServiceExpose` struct. -/
structure ConfigurationServiceExpose where
  Service : String
  Consumer : Consumer
  Client : ServiceClient
  Methods : List ConfigurationMethodExpose
deriving DecidableEq

/-- An element of `Redis.Nodes[i].SentinelNodes`. -/
structure SentinelNode where
  Host : String
  Port : Nat
deriving DecidableEq

/-- An element of `Redis.Nodes`. -/
structure Node where
  Sequence : Nat
  Host : String
  Port : Nat
  Db : Nat
  Password : String
  Sentinel : Bool
  Master : String
  SentinelNodes : List SentinelNode
deriving DecidableEq

/-- The anonymous struct of `Configuration.Redis`. -/
structure Redis where
  Prefix : String
  JobPoolSize : Int
  Nodes : List Node
deriving DecidableEq

/-- The anonymous struct of `Configuration.Server`. -/
structure Server where
  Address : String
  Port : Nat
  Enable : Bool
  MaxHeaderListSize : Nat
deriving DecidableEq

/-- The anonymous struct of `Configuration.Client`. -/
structure Client where
  Enable : Bool
deriving DecidableEq

/-- The anonymous struct of `Configuration.Metrics.Routes`. -/
structure Routes where
  Metrics : String
  Readiness : String
  Liveness : String
deriving DecidableEq

/-- The anonymous struct of `Configuration.Metrics`. -/
structure Metrics where
  Address : String
  ShutdownTimeout : String
  Port : Nat
  Routes : Routes
deriving DecidableEq

/-- The anonymous struct of `Configuration.Protos`. -/
structure Protos where
  Services : List ConfigurationServiceExpose
deriving DecidableEq

/-- The `Configuration` struct. -/
structure Configuration where
  Redis : Redis
  Server : Server
  Client : Client
  Metrics : Metrics
  Protos : Protos
deriving DecidableEq

/-! ## Fatal conditions and warnings -/

/-- One constructor per `log.Fatal`/`log.Fatalf` call of the file, with the
indices the call formats into its message. -/
inductive Fatal where
  | configurationFileEnv
  | readFile
  | parseYaml
  | noRedisNode
  | masterName (i : Nat)
  | noSentinelNode (i : Nat)
  | sentinelAddress (t i : Nat)
  | sentinelPort (t i : Nat)
  | nodeAddress (i : Nat)
  | nodePort (i : Nat)
  | noService
  | serviceName (i : Nat)
  | clientAddress (i : Nat)
  | clientPort (i : Nat)
  | noMethod (i : Nat)
  | methodName (i t : Nat)
  | methodPattern (i t : Nat)
deriving DecidableEq

/-- Text logged by the `log.Fatal`/`log.Fatalf` call, `%v` of an index being
its decimal form. The two loader errors print the underlying `err`, which is
not modelled. -/
def Fatal.message : Fatal → String
  | .configurationFileEnv =>
      "You must specify the CONFIGURATION_FILE environment variable"
  | .readFile => "Error while reading configuration file: "
  | .parseYaml => "Error while parsing YAML from configuration file: "
  | .noRedisNode => "You must specify at least one Redis node"
  | .masterName i =>
      "Master name must be specified for sentinel, node " ++ toString i
  | .noSentinelNode i =>
      "You must specify at least one sentinel node, node " ++ toString i
  | .sentinelAddress t i =>
      "Redis Sentinel node " ++ toString t ++ " must have a valid address, node "
        ++ toString i
  | .sentinelPort t i =>
      "Redis Sentinel node " ++ toString t ++ " must have a valid port, node "
        ++ toString i
  | .nodeAddress i => "Redis node " ++ toString i ++ " must have a valid address"
  | .nodePort i => "Redis node " ++ toString i ++ " must have a valid port"
  | .noService => "You must specify at least one service"
  | .serviceName i => "Empty service name for service " ++ toString i
  | .clientAddress i => "Empty client address for service " ++ toString i
  | .clientPort i => "Invalid client port for service " ++ toString i
  | .noMethod i =>
      "You must specify at least one method for service " ++ toString i
  | .methodName i t =>
      "Invalid method name for service " ++ toString i ++ ", method " ++ toString t
  | .methodPattern i t =>
      "Invalid method pattern for service " ++ toString i ++ ", method "
        ++ toString t

/-- The fatal conditions raised by `defaultRedisValues`. -/
def Fatal.isRedis : Fatal → Bool
  | .noRedisNode | .masterName _ | .noSentinelNode _ | .sentinelAddress _ _
  | .sentinelPort _ _ | .nodeAddress _ | .nodePort _ => true
  | _ => false

/-- The fatal conditions raised by `defaultProtosValues`. -/
def Fatal.isProtos : Fatal → Bool
  | .noService | .serviceName _ | .clientAddress _ | .clientPort _
  | .noMethod _ | .methodName _ _ | .methodPattern _ _ => true
  | _ => false

/-- The single `log.Warnf` call of the file, with the value it formats. -/
inductive Warning where
  | maxHeaderListSize (v : Nat)
deriving DecidableEq

/-- The number logrus gives a level, a higher number being more verbose:
`ErrorLevel` is `2`, `WarnLevel` is `3`, `InfoLevel` is `4`, `DebugLevel` is
`5`. -/
def Level.severity : Level → Nat
  | .ErrorLevel => 2
  | .WarnLevel => 3
  | .InfoLevel => 4
  | .DebugLevel => 5

/-- Whether a logger set to `level` prints what `log.Warnf` is called with:
logrus prints an entry when the level of the logger is at least the level of
the entry, so a logger set to `ErrorLevel` drops it. -/
def warnEnabled (level : Level) : Bool :=
  decide (Level.severity .WarnLevel ≤ level.severity)

/-- What a logger set to `level` prints of the calls to `log.Warnf` that were
made. The level of the logger is state of logrus that this file does not
set, so it is a parameter. -/
def emitted (level : Level) (warnings : List Warning) : List Warning :=
  if warnEnabled level then warnings else []

/-! ## `loadParameters` -/

/-- `loadParameters`, the environment being the function `os.LookupEnv`. -/
def loadParameters (lookupEnv : String → Option String) : Except Fatal Parameters :=
  let parameters : Parameters :=
    { enableHotReload := true, logLevel := .DebugLevel, configurationFile := "" }
  match lookupEnv "CONFIGURATION_FILE" with
  | none => .error .configurationFileEnv
  | some configurationFile =>
    let parameters := { parameters with configurationFile := configurationFile }
    let parameters :=
      match lookupEnv "ENABLE_HOT_RELOAD" with
      | some enableHotReload =>
          if enableHotReload = "false" then
            { parameters with enableHotReload := false }
          else parameters
      | none => parameters
    let parameters :=
      match lookupEnv "LOG_LEVEL" with
      | some logLevel =>
          if logLevel = "info" then { parameters with logLevel := .InfoLevel }
          else if logLevel = "warn" then { parameters with logLevel := .WarnLevel }
          else if logLevel = "error" then { parameters with logLevel := .ErrorLevel }
          else parameters
      | none => parameters
    .ok parameters

/-! ## `defaultRedisValues` -/

/-- The loop `for t := range node.SentinelNodes` of node `i`, from index `t`. -/
def checkSentinelNodes (i : Nat) : Nat → List SentinelNode → Except Fatal Unit
  | _, [] => .ok ()
  | t, sentinel :: rest =>
    if sentinel.Host.utf8ByteSize = 0 then .error (.sentinelAddress t i)
    else if sentinel.Port ≤ 0 then .error (.sentinelPort t i)
    else checkSentinelNodes i (t + 1) rest

/-- The body of the loop `for i := range conf.Redis.Nodes`: the sentinel
branch ends in `continue`, so the host and port checks are not reached. -/
def checkNode (i : Nat) (node : Node) : Except Fatal Unit :=
  if node.Sentinel then
    if node.Master.utf8ByteSize = 0 then .error (.masterName i)
    else if node.SentinelNodes.length = 0 then .error (.noSentinelNode i)
    else checkSentinelNodes i 0 node.SentinelNodes
  else if node.Host.utf8ByteSize = 0 then .error (.nodeAddress i)
  else if node.Port ≤ 0 then .error (.nodePort i)
  else .ok ()

/-- The loop `for i := range conf.Redis.Nodes`, from index `i`. -/
def checkNodes : Nat → List Node → Except Fatal Unit
  | _, [] => .ok ()
  | i, node :: rest =>
    match checkNode i node with
    | .error e => .error e
    | .ok () => checkNodes (i + 1) rest

/-- `defaultRedisValues`. -/
def defaultRedisValues (conf : Configuration) : Except Fatal Configuration :=
  let conf :=
    if conf.Redis.Prefix.utf8ByteSize = 0 then
      { conf with Redis := { conf.Redis with Prefix := "polygate" } }
    else conf
  let conf :=
    if conf.Redis.JobPoolSize ≤ 0 then
      { conf with Redis := { conf.Redis with JobPoolSize := 5 } }
    else conf
  if conf.Redis.Nodes.length = 0 then .error .noRedisNode
  else
    match checkNodes 0 conf.Redis.Nodes with
    | .error e => .error e
    | .ok () => .ok conf

/-! ## `defaultServerValues` -/

/-- `defaultServerValues`; the call to `log.Warnf`, when it is reached, is
returned beside the configuration. What the logger prints of it is
`emitted`. -/
def defaultServerValues (conf : Configuration) :
    Except Fatal (Configuration × List Warning) :=
  let conf :=
    if conf.Server.Address.utf8ByteSize = 0 then
      { conf with Server := { conf.Server with Address := "0.0.0.0" } }
    else conf
  let conf :=
    if conf.Server.Port ≤ 0 then
      { conf with Server := { conf.Server with Port := 4774 } }
    else conf
  if conf.Server.MaxHeaderListSize ≤ 0 then
    .ok (conf, [.maxHeaderListSize conf.Server.MaxHeaderListSize])
  else .ok (conf, [])

/-! ## `defaultMetricsValues` -/

/-- `defaultMetricsValues`. -/
def defaultMetricsValues (conf : Configuration) : Except Fatal Configuration :=
  let conf :=
    if conf.Metrics.Address.utf8ByteSize = 0 then
      { conf with Metrics := { conf.Metrics with Address := "0.0.0.0" } }
    else conf
  let conf :=
    if conf.Metrics.ShutdownTimeout.utf8ByteSize = 0 then
      { conf with Metrics := { conf.Metrics with ShutdownTimeout := "15" } }
    else conf
  let conf :=
    if conf.Metrics.Port ≤ 0 then
      { conf with Metrics := { conf.Metrics with Port := 2112 } }
    else conf
  let conf :=
    if conf.Metrics.Routes.Metrics.utf8ByteSize = 0 then
      { conf with Metrics :=
          { conf.Metrics with Routes := { conf.Metrics.Routes with Metrics := "/metrics" } } }
    else conf
  let conf :=
    if conf.Metrics.Routes.Readiness.utf8ByteSize = 0 then
      { conf with Metrics :=
          { conf.Metrics with Routes := { conf.Metrics.Routes with Readiness := "/ready" } } }
    else conf
  let conf :=
    if conf.Metrics.Routes.Liveness.utf8ByteSize = 0 then
      { conf with Metrics :=
          { conf.Metrics with Routes := { conf.Metrics.Routes with Liveness := "/live" } } }
    else conf
  .ok conf

/-! ## `defaultProtosValues` -/

/-- The body of the loop `for t := range service.Methods` of service `i`. -/
def defaultMethod (i t : Nat) (method : ConfigurationMethodExpose) :
    Except Fatal ConfigurationMethodExpose :=
  if method.Name.utf8ByteSize = 0 then .error (.methodName i t)
  else if method.Pattern ≠ "queue" ∧ method.Pattern ≠ "fireAndForget" then
    .error (.methodPattern i t)
  else
    let method := if method.Capped ≤ 0 then { method with Capped := 10000 } else method
    let method :=
      if method.Stream.utf8ByteSize = 0 then { method with Stream := method.Name }
      else method
    let method :=
      if method.TimeoutWaitForNext.utf8ByteSize = 0 then
        { method with TimeoutWaitForNext := "1s" }
      else method
    .ok method

/-- The loop `for t := range service.Methods` of service `i`, from index `t`. -/
def defaultMethods (i : Nat) :
    Nat → List ConfigurationMethodExpose → Except Fatal (List ConfigurationMethodExpose)
  | _, [] => .ok []
  | t, method :: rest =>
    match defaultMethod i t method with
    | .error e => .error e
    | .ok method =>
      match defaultMethods i (t + 1) rest with
      | .error e => .error e
      | .ok rest => .ok (method :: rest)

/-- The body of the loop `for i := range conf.Protos.Services`. -/
def defaultService (i : Nat) (service : ConfigurationServiceExpose) :
    Except Fatal ConfigurationServiceExpose :=
  if service.Service.utf8ByteSize = 0 then .error (.serviceName i)
  else
    let service :=
      if service.Consumer.Concurrency ≤ 0 then
        { service with Consumer := { service.Consumer with Concurrency := 50 } }
      else service
    let service :=
      if service.Consumer.Block.utf8ByteSize = 0 then
        { service with Consumer := { service.Consumer with Block := "5000ms" } }
      else service
    let service :=
      if service.Consumer.Retry.Limit ≤ 0 then
        { service with Consumer :=
            { service.Consumer with Retry := { service.Consumer.Retry with Limit := 3 } } }
      else service
    let service :=
      if service.Consumer.Retry.PageSize ≤ 0 then
        { service with Consumer :=
            { service.Consumer with Retry := { service.Consumer.Retry with PageSize := 1000 } } }
      else service
    let service :=
      if service.Consumer.Retry.Deadline.utf8ByteSize = 0 then
        { service with Consumer :=
            { service.Consumer with
              Retry := { service.Consumer.Retry with Deadline := "10000ms" } } }
      else service
    if service.Client.Address.utf8ByteSize = 0 then .error (.clientAddress i)
    else if service.Client.Port ≤ 0 then .error (.clientPort i)
    else if service.Methods.length = 0 then .error (.noMethod i)
    else
      match defaultMethods i 0 service.Methods with
      | .error e => .error e
      | .ok methods => .ok { service with Methods := methods }

/-- The loop `for i := range conf.Protos.Services`, from index `i`. -/
def defaultServices :
    Nat → List ConfigurationServiceExpose → Except Fatal (List ConfigurationServiceExpose)
  | _, [] => .ok []
  | i, service :: rest =>
    match defaultService i service with
    | .error e => .error e
    | .ok service =>
      match defaultServices (i + 1) rest with
      | .error e => .error e
      | .ok rest => .ok (service :: rest)

/-- `defaultProtosValues`. -/
def defaultProtosValues (conf : Configuration) : Except Fatal Configuration :=
  if conf.Protos.Services.length = 0 then .error .noService
  else
    match defaultServices 0 conf.Protos.Services with
    | .error e => .error e
    | .ok services => .ok { conf with Protos := { conf.Protos with Services := services } }

/-! ## `loadConfiguration` -/

/-- The four passes that `loadConfiguration` runs on the parsed document, in
the order of the source: Redis, Server, Metrics, Protos. -/
def cascade (conf : Configuration) : Except Fatal (Configuration × List Warning) :=
  match defaultRedisValues conf with
  | .error e => .error e
  | .ok conf =>
    match defaultServerValues conf with
    | .error e => .error e
    | .ok (conf, warnings) =>
      match defaultMetricsValues conf with
      | .error e => .error e
      | .ok conf =>
        match defaultProtosValues conf with
        | .error e => .error e
        | .ok conf => .ok (conf, warnings)

/-- `loadConfiguration`: `readFile` stands for `ioutil.ReadFile` and
`unmarshal` for `yaml.Unmarshal` into an empty `Configuration`, both
returning `none` on an error. -/
def loadConfiguration (readFile : String → Option String)
    (unmarshal : String → Option Configuration) (parameters : Parameters) :
    Except Fatal (Configuration × List Warning) :=
  match readFile parameters.configurationFile with
  | none => .error .readFile
  | some content =>
    match unmarshal content with
    | none => .error .parseYaml
    | some configuration => cascade configuration

/-! ## Validity of the required fields, as the specification words it -/

/-- A sentinel entry has a non-empty host and a positive port. -/
def SentinelNode.Valid (sentinel : SentinelNode) : Prop :=
  sentinel.Host ≠ "" ∧ 0 < sentinel.Port

/-- A sentinel node needs a master name and a non-empty list of valid
sentinel entries; a direct node needs a host and a positive port. -/
def Node.Valid (node : Node) : Prop :=
  (node.Sentinel = true →
    node.Master ≠ "" ∧ node.SentinelNodes ≠ [] ∧
      ∀ sentinel ∈ node.SentinelNodes, sentinel.Valid) ∧
  (node.Sentinel = false → node.Host ≠ "" ∧ 0 < node.Port)

/-- The Redis section has at least one node and all its nodes are valid. -/
def RedisValid (conf : Configuration) : Prop :=
  conf.Redis.Nodes ≠ [] ∧ ∀ node ∈ conf.Redis.Nodes, node.Valid

/-- A method pattern is one of the two delivery patterns. -/
def PatternValid (pattern : String) : Prop :=
  pattern = "queue" ∨ pattern = "fireAndForget"

/-- A method has a name and a valid pattern. -/
def ConfigurationMethodExpose.Valid (method : ConfigurationMethodExpose) : Prop :=
  method.Name ≠ "" ∧ PatternValid method.Pattern

/-- A service has a name, a client address, a positive client port and a
non-empty list of valid methods. -/
def ConfigurationServiceExpose.Valid (service : ConfigurationServiceExpose) : Prop :=
  service.Service ≠ "" ∧ service.Client.Address ≠ "" ∧ 0 < service.Client.Port ∧
    service.Methods ≠ [] ∧ ∀ method ∈ service.Methods, method.Valid

/-- The Protos section has at least one service and all its services are valid. -/
def ProtosValid (conf : Configuration) : Prop :=
  conf.Protos.Services ≠ [] ∧ ∀ service ∈ conf.Protos.Services, service.Valid

instance (sentinel : SentinelNode) : Decidable sentinel.Valid :=
  inferInstanceAs (Decidable (_ ∧ _))

instance (node : Node) : Decidable node.Valid :=
  inferInstanceAs (Decidable (_ ∧ _))

instance (conf : Configuration) : Decidable (RedisValid conf) :=
  inferInstanceAs (Decidable (_ ∧ _))

instance (pattern : String) : Decidable (PatternValid pattern) :=
  inferInstanceAs (Decidable (_ ∨ _))

instance (method : ConfigurationMethodExpose) : Decidable method.Valid :=
  inferInstanceAs (Decidable (_ ∧ _))

instance (service : ConfigurationServiceExpose) : Decidable service.Valid :=
  inferInstanceAs (Decidable (_ ∧ _))

instance (conf : Configuration) : Decidable (ProtosValid conf) :=
  inferInstanceAs (Decidable (_ ∧ _))

/-! ## Sample configurations -/

/-- A direct node: host and port set, no master, no sentinel entries. -/
def directNode : Node :=
  { Sequence := 0, Host := "127.0.0.1", Port := 6379, Db := 0, Password := "",
    Sentinel := false, Master := "", SentinelNodes := [] }

/-- A sentinel node: master and one sentinel entry set, no host, port `0`. -/
def sentinelNode : Node :=
  { Sequence := 1, Host := "", Port := 0, Db := 0, Password := "",
    Sentinel := true, Master := "mymaster",
    SentinelNodes := [{ Host := "10.0.0.5", Port := 26379 }] }

/-- A method with the pattern given and every defaultable field unset. -/
def pingMethod (pattern : String) : ConfigurationMethodExpose :=
  { Pattern := pattern, Name := "Ping", Capped := 0, Stream := "",
    TimeoutWaitForNext := "" }

/-- A service with one method and every consumer field unset. -/
def pingService (pattern : String) : ConfigurationServiceExpose :=
  { Service := "Pinger"
    Consumer :=
      { Concurrency := 0, Block := "", Retry := { Limit := 0, PageSize := 0, Deadline := "" } }
    Client := { Address := "10.0.0.1", Port := 9000 }
    Methods := [pingMethod pattern] }

/-- A document with the nodes given, one service with one method of the
pattern given, and every field that has a default left unset. -/
def sampleConfiguration (nodes : List Node) (pattern : String) : Configuration :=
  { Redis := { Prefix := "", JobPoolSize := 0, Nodes := nodes }
    Server := { Address := "", Port := 0, Enable := true, MaxHeaderListSize := 0 }
    Client := { Enable := false }
    Metrics :=
      { Address := "", ShutdownTimeout := "", Port := 0,
        Routes := { Metrics := "", Readiness := "", Liveness := "" } }
    Protos := { Services := [pingService pattern] } }

/-! ## Completeness of a configuration -/

/-- Every field of a node that the data model lists is set, whatever the
mode of the node. -/
def Node.Complete (node : Node) : Prop :=
  node.Host ≠ "" ∧ node.Port ≠ 0 ∧ node.Master ≠ "" ∧ node.SentinelNodes ≠ [] ∧
    ∀ sentinel ∈ node.SentinelNodes, sentinel.Host ≠ "" ∧ sentinel.Port ≠ 0

/-- The fields of the mode of the node are set: master and sentinel entries
for a sentinel node, host and port for a direct node. -/
def Node.CompleteForMode (node : Node) : Prop :=
  (node.Sentinel = true →
    node.Master ≠ "" ∧ node.SentinelNodes ≠ [] ∧
      ∀ sentinel ∈ node.SentinelNodes, sentinel.Host ≠ "" ∧ sentinel.Port ≠ 0) ∧
  (node.Sentinel = false → node.Host ≠ "" ∧ node.Port ≠ 0)

/-- All six fields of the Metrics section are set. -/
def Metrics.Complete (metrics : Metrics) : Prop :=
  metrics.Address ≠ "" ∧ metrics.ShutdownTimeout ≠ "" ∧ metrics.Port ≠ 0 ∧
    metrics.Routes.Metrics ≠ "" ∧ metrics.Routes.Readiness ≠ "" ∧
    metrics.Routes.Liveness ≠ ""

/-- All five fields of a method are set. -/
def ConfigurationMethodExpose.Complete (method : ConfigurationMethodExpose) : Prop :=
  method.Name ≠ "" ∧ method.Pattern ≠ "" ∧ method.Capped ≠ 0 ∧ method.Stream ≠ "" ∧
    method.TimeoutWaitForNext ≠ ""

/-- The name, the five consumer fields, the client address and port of a
service are set, and it has at least one method, all complete. -/
def ConfigurationServiceExpose.Complete (service : ConfigurationServiceExpose) : Prop :=
  service.Service ≠ "" ∧ service.Consumer.Concurrency ≠ 0 ∧ service.Consumer.Block ≠ "" ∧
    service.Consumer.Retry.Limit ≠ 0 ∧ service.Consumer.Retry.PageSize ≠ 0 ∧
    service.Consumer.Retry.Deadline ≠ "" ∧ service.Client.Address ≠ "" ∧
    service.Client.Port ≠ 0 ∧ service.Methods ≠ [] ∧
    ∀ method ∈ service.Methods, method.Complete

/-- Completeness as the specification states it: no listed string field is
empty, no listed numeric field is zero and no listed list is empty. -/
def Complete (conf : Configuration) : Prop :=
  conf.Redis.Prefix ≠ "" ∧ conf.Redis.JobPoolSize ≠ 0 ∧ conf.Redis.Nodes ≠ [] ∧
    (∀ node ∈ conf.Redis.Nodes, node.Complete) ∧
    conf.Server.Address ≠ "" ∧ conf.Server.Port ≠ 0 ∧ conf.Server.MaxHeaderListSize ≠ 0 ∧
    conf.Metrics.Complete ∧
    conf.Protos.Services ≠ [] ∧ ∀ service ∈ conf.Protos.Services, service.Complete

/-- Completeness without `Server.MaxHeaderListSize` and, for every node,
restricted to the fields of the mode of that node. -/
def CompleteForMode (conf : Configuration) : Prop :=
  conf.Redis.Prefix ≠ "" ∧ conf.Redis.JobPoolSize ≠ 0 ∧ conf.Redis.Nodes ≠ [] ∧
    (∀ node ∈ conf.Redis.Nodes, node.CompleteForMode) ∧
    conf.Server.Address ≠ "" ∧ conf.Server.Port ≠ 0 ∧
    conf.Metrics.Complete ∧
    conf.Protos.Services ≠ [] ∧ ∀ service ∈ conf.Protos.Services, service.Complete

/-- A direct node that carries an entry without host and port in its unused
list of sentinel entries. -/
def strayNode : Node :=
  { Sequence := 2, Host := "127.0.0.2", Port := 6380, Db := 0, Password := "",
    Sentinel := false, Master := "", SentinelNodes := [{ Host := "", Port := 0 }] }

/-- A method with every defaultable field set, its stream differing from
its name. -/
def setMethod : ConfigurationMethodExpose :=
  { Pattern := "fireAndForget", Name := "Ping", Capped := 42, Stream := "pings",
    TimeoutWaitForNext := "3s" }

/-- A document in which every defaultable field is set. -/
def setConfiguration : Configuration :=
  { Redis := { Prefix := "gateway", JobPoolSize := 8, Nodes := [directNode] }
    Server := { Address := "127.0.0.1", Port := 8080, Enable := true, MaxHeaderListSize := 4096 }
    Client := { Enable := true }
    Metrics :=
      { Address := "127.0.0.1", ShutdownTimeout := "30", Port := 9100,
        Routes := { Metrics := "/m", Readiness := "/r", Liveness := "/l" } }
    Protos :=
      { Services :=
          [{ Service := "Pinger"
             Consumer :=
               { Concurrency := 4, Block := "100ms",
                 Retry := { Limit := 7, PageSize := 20, Deadline := "500ms" } }
             Client := { Address := "10.0.0.1", Port := 9000 }
             Methods := [setMethod] }] } }

/-! ## Indices cited by a fatal condition -/

/-- The node index, or the service index, that the message cites. -/
def Fatal.index : Fatal → Option Nat
  | .masterName i | .noSentinelNode i | .sentinelAddress _ i | .sentinelPort _ i
  | .nodeAddress i | .nodePort i | .serviceName i | .clientAddress i | .clientPort i
  | .noMethod i | .methodName i _ | .methodPattern i _ => some i
  | _ => none

/-- The sentinel entry index, or the method index, that the message cites. -/
def Fatal.subIndex : Fatal → Option Nat
  | .sentinelAddress t _ | .sentinelPort t _ | .methodName _ t | .methodPattern _ t => some t
  | _ => none

/-! ## The result of an accepted pass, in closed form -/

/-- The Redis section after its two defaults. -/
def redisDefaults (conf : Configuration) : Configuration :=
  { conf with
    Redis :=
      { Prefix := if conf.Redis.Prefix = "" then "polygate" else conf.Redis.Prefix
        JobPoolSize := if conf.Redis.JobPoolSize ≤ 0 then 5 else conf.Redis.JobPoolSize
        Nodes := conf.Redis.Nodes } }

/-- The Server section after its two defaults. -/
def serverDefaults (conf : Configuration) : Configuration :=
  { conf with
    Server :=
      { Address := if conf.Server.Address = "" then "0.0.0.0" else conf.Server.Address
        Port := if conf.Server.Port = 0 then 4774 else conf.Server.Port
        Enable := conf.Server.Enable
        MaxHeaderListSize := conf.Server.MaxHeaderListSize } }

/-- The calls to `log.Warnf` of the Server pass. -/
def serverWarnings (conf : Configuration) : List Warning :=
  if conf.Server.MaxHeaderListSize = 0 then
    [.maxHeaderListSize conf.Server.MaxHeaderListSize]
  else []

/-- The Metrics section after its six defaults. -/
def metricsDefaults (conf : Configuration) : Configuration :=
  { conf with
    Metrics :=
      { Address := if conf.Metrics.Address = "" then "0.0.0.0" else conf.Metrics.Address
        ShutdownTimeout :=
          if conf.Metrics.ShutdownTimeout = "" then "15" else conf.Metrics.ShutdownTimeout
        Port := if conf.Metrics.Port = 0 then 2112 else conf.Metrics.Port
        Routes :=
          { Metrics :=
              if conf.Metrics.Routes.Metrics = "" then "/metrics"
              else conf.Metrics.Routes.Metrics
            Readiness :=
              if conf.Metrics.Routes.Readiness = "" then "/ready"
              else conf.Metrics.Routes.Readiness
            Liveness :=
              if conf.Metrics.Routes.Liveness = "" then "/live"
              else conf.Metrics.Routes.Liveness } } }

/-- A method after its three defaults. -/
def methodDefaults (method : ConfigurationMethodExpose) : ConfigurationMethodExpose :=
  { Pattern := method.Pattern
    Name := method.Name
    Capped := if method.Capped = 0 then 10000 else method.Capped
    Stream := if method.Stream = "" then method.Name else method.Stream
    TimeoutWaitForNext :=
      if method.TimeoutWaitForNext = "" then "1s" else method.TimeoutWaitForNext }

/-- The consumer fields after their five defaults. -/
def consumerDefaults (consumer : Consumer) : Consumer :=
  { Concurrency := if consumer.Concurrency = 0 then 50 else consumer.Concurrency
    Block := if consumer.Block = "" then "5000ms" else consumer.Block
    Retry :=
      { Limit := if consumer.Retry.Limit ≤ 0 then 3 else consumer.Retry.Limit
        PageSize := if consumer.Retry.PageSize ≤ 0 then 1000 else consumer.Retry.PageSize
        Deadline :=
          if consumer.Retry.Deadline = "" then "10000ms" else consumer.Retry.Deadline } }

/-- A service after the defaults of its consumer and of its methods. -/
def serviceDefaults (service : ConfigurationServiceExpose) : ConfigurationServiceExpose :=
  { Service := service.Service
    Consumer := consumerDefaults service.Consumer
    Client := service.Client
    Methods := service.Methods.map methodDefaults }

/-- The Protos section after the defaults of all its services. -/
def protosDefaults (conf : Configuration) : Configuration :=
  { conf with Protos := { Services := conf.Protos.Services.map serviceDefaults } }

/-! ## Environments and the result of `loadParameters`, in closed form -/

/-- The environment that holds the bindings given, as `os.LookupEnv` sees it:
a name is present when it is bound, also when it is bound to `""`. -/
def environment (bindings : List (String × String)) (name : String) : Option String :=
  bindings.lookup name

/-- The hot-reload toggle read from the result of looking up
`ENABLE_HOT_RELOAD`. -/
def hotReloadOf : Option String → Bool
  | some value => if value = "false" then false else true
  | none => true

/-- The level read from the result of looking up `LOG_LEVEL`. -/
def logLevelOf : Option String → Level
  | some value =>
    if value = "info" then .InfoLevel
    else if value = "warn" then .WarnLevel
    else if value = "error" then .ErrorLevel
    else .DebugLevel
  | none => .DebugLevel

/-- An environment with `CONFIGURATION_FILE` set and `ENABLE_HOT_RELOAD` and
`LOG_LEVEL` set when a value is given. -/
def sampleEnvironment (hotReload logLevel : Option String) : String → Option String :=
  environment
    ([("CONFIGURATION_FILE", "c.yaml")] ++
      (hotReload.map fun value => ("ENABLE_HOT_RELOAD", value)).toList ++
      (logLevel.map fun value => ("LOG_LEVEL", value)).toList)

/-! ## The fields that the checks read -/

/-- The fatal condition in which a run ended, `none` when it returned. -/
def fatalOf {α : Type} : Except Fatal α → Option Fatal
  | .error e => some e
  | .ok _ => none

/-- The required fields of a method: its name and its pattern. -/
def requiredOfMethod (method : ConfigurationMethodExpose) : String × String :=
  (method.Name, method.Pattern)

/-- The required fields of a service: its name, its client address and port,
and the required fields of its methods, in order. -/
def requiredOfService (service : ConfigurationServiceExpose) :
    String × String × Nat × List (String × String) :=
  (service.Service, service.Client.Address, service.Client.Port,
    service.Methods.map requiredOfMethod)

/-! ## Auxiliary lemmas -/

theorem utf8ByteSize_eq_zero_iff (s : String) : s.utf8ByteSize = 0 ↔ s = "" := by
  constructor
  · intro h
    cases s with
    | mk l =>
      cases l with
      | nil => rfl
      | cons c cs =>
        simp [String.utf8ByteSize, String.utf8ByteSize.go] at h
        have := Char.utf8Size_pos c
        omega
  · rintro rfl; rfl

theorem checkSentinelNodes_ok_iff (i : Nat) (l : List SentinelNode) (t : Nat) :
    checkSentinelNodes i t l = .ok () ↔ ∀ sentinel ∈ l, sentinel.Valid := by
  induction l generalizing t with
  | nil => simp [checkSentinelNodes]
  | cons s rest ih =>
    simp only [checkSentinelNodes, utf8ByteSize_eq_zero_iff, List.forall_mem_cons,
      SentinelNode.Valid]
    by_cases h1 : s.Host = ""
    · simp [h1]
    · by_cases h2 : s.Port ≤ 0
      · simp [h1, h2]
      · have h3 : 0 < s.Port := by omega
        simp [h1, h2, h3, ih, SentinelNode.Valid]

theorem checkNode_ok_iff (i : Nat) (node : Node) :
    checkNode i node = .ok () ↔ node.Valid := by
  unfold checkNode Node.Valid
  cases hs : node.Sentinel
  · by_cases h1 : node.Host = ""
    · simp [utf8ByteSize_eq_zero_iff, h1]
    · by_cases h2 : node.Port ≤ 0
      · simp [utf8ByteSize_eq_zero_iff, h1, h2]
      · have : 0 < node.Port := by omega
        simp [utf8ByteSize_eq_zero_iff, h1, h2, this]
  · by_cases h1 : node.Master = ""
    · simp [utf8ByteSize_eq_zero_iff, h1]
    · by_cases h2 : node.SentinelNodes = []
      · simp [utf8ByteSize_eq_zero_iff, h1, h2]
      · simp [utf8ByteSize_eq_zero_iff, h1, h2, checkSentinelNodes_ok_iff]

theorem checkNodes_ok_iff (l : List Node) (i : Nat) :
    checkNodes i l = .ok () ↔ ∀ node ∈ l, node.Valid := by
  induction l generalizing i with
  | nil => simp [checkNodes]
  | cons n rest ih =>
    simp only [checkNodes, List.forall_mem_cons, ← checkNode_ok_iff i n]
    cases h : checkNode i n with
    | error e => simp
    | ok u => cases u; simp [ih]

theorem defaultRedisValues_eq (conf : Configuration) :
    defaultRedisValues conf =
      if conf.Redis.Nodes = [] then .error .noRedisNode
      else
        match checkNodes 0 conf.Redis.Nodes with
        | .error e => .error e
        | .ok () => .ok (redisDefaults conf) := by
  unfold defaultRedisValues redisDefaults
  simp only [utf8ByteSize_eq_zero_iff, List.length_eq_zero]
  by_cases h1 : conf.Redis.Prefix = "" <;> by_cases h2 : conf.Redis.JobPoolSize ≤ 0 <;>
    simp [h1, h2]

theorem defaultRedisValues_ok_iff (conf conf' : Configuration) :
    defaultRedisValues conf = .ok conf' ↔ RedisValid conf ∧ conf' = redisDefaults conf := by
  rw [defaultRedisValues_eq]
  unfold RedisValid
  by_cases h3 : conf.Redis.Nodes = []
  · simp [h3]
  · cases h : checkNodes 0 conf.Redis.Nodes with
    | error e =>
      have := (checkNodes_ok_iff conf.Redis.Nodes 0).not.mp (by simp [h])
      simp [h3, this]
    | ok u =>
      cases u
      have := (checkNodes_ok_iff conf.Redis.Nodes 0).mp h
      simp only [h3, if_false, ne_eq, not_false_eq_true, true_and, Except.ok.injEq]
      exact ⟨fun e => ⟨this, e.symm⟩, fun e => e.2.symm⟩

theorem defaultServerValues_eq (conf : Configuration) :
    defaultServerValues conf = .ok (serverDefaults conf, serverWarnings conf) := by
  unfold defaultServerValues serverDefaults serverWarnings
  simp only [utf8ByteSize_eq_zero_iff, Nat.le_zero]
  by_cases h1 : conf.Server.Address = "" <;> by_cases h2 : conf.Server.Port = 0 <;>
    simp only [h1, h2, if_true, if_false] <;> split <;> rfl

theorem defaultMetricsValues_eq (conf : Configuration) :
    defaultMetricsValues conf = .ok (metricsDefaults conf) := by
  unfold defaultMetricsValues metricsDefaults
  simp only [utf8ByteSize_eq_zero_iff, Nat.le_zero]
  by_cases h1 : conf.Metrics.Address = "" <;>
    by_cases h2 : conf.Metrics.ShutdownTimeout = "" <;>
    by_cases h3 : conf.Metrics.Port = 0 <;>
    by_cases h4 : conf.Metrics.Routes.Metrics = "" <;>
    by_cases h5 : conf.Metrics.Routes.Readiness = "" <;>
    by_cases h6 : conf.Metrics.Routes.Liveness = "" <;>
    simp [h1, h2, h3, h4, h5, h6]

theorem defaultMethod_eq (i t : Nat) (method : ConfigurationMethodExpose) :
    defaultMethod i t method =
      if method.Name = "" then .error (.methodName i t)
      else if ¬ PatternValid method.Pattern then .error (.methodPattern i t)
      else .ok (methodDefaults method) := by
  unfold defaultMethod methodDefaults PatternValid
  simp only [utf8ByteSize_eq_zero_iff, Nat.le_zero, not_or, ne_eq]
  by_cases h0 : method.Name = ""
  · simp [h0]
  · by_cases hp : (¬ method.Pattern = "queue" ∧ ¬ method.Pattern = "fireAndForget")
    · simp [h0, hp]
    · by_cases h1 : method.Capped = 0 <;> by_cases h2 : method.Stream = "" <;>
        by_cases h3 : method.TimeoutWaitForNext = "" <;> simp [h0, hp, h1, h2, h3]

theorem defaultMethod_ok_iff (i t : Nat) (method method' : ConfigurationMethodExpose) :
    defaultMethod i t method = .ok method' ↔
      method.Valid ∧ method' = methodDefaults method := by
  rw [defaultMethod_eq]
  unfold ConfigurationMethodExpose.Valid
  by_cases h0 : method.Name = ""
  · simp [h0]
  · by_cases hp : PatternValid method.Pattern
    · simp [h0, hp, eq_comm]
    · simp [h0, hp]

theorem defaultMethods_ok_iff (i : Nat) (l l' : List ConfigurationMethodExpose) (t : Nat) :
    defaultMethods i t l = .ok l' ↔
      (∀ method ∈ l, method.Valid) ∧ l' = l.map methodDefaults := by
  induction l generalizing t l' with
  | nil => simp [defaultMethods, eq_comm]
  | cons m rest ih =>
    simp only [defaultMethods, List.forall_mem_cons, List.map_cons]
    cases h : defaultMethod i t m with
    | error e =>
      have : ¬ m.Valid := fun hv => by
        have := (defaultMethod_ok_iff i t m (methodDefaults m)).mpr ⟨hv, rfl⟩
        simp [h] at this
      simp [this]
    | ok m' =>
      obtain ⟨hv, rfl⟩ := (defaultMethod_ok_iff i t m m').mp h
      cases h' : defaultMethods i (t + 1) rest with
      | error e =>
        have : ¬ ∀ method ∈ rest, method.Valid := fun hr => by
          have := (ih (rest.map methodDefaults) (t + 1)).mpr ⟨hr, rfl⟩
          simp [h'] at this
        simp [this]
      | ok rest' =>
        obtain ⟨hr, rfl⟩ := (ih rest' (t + 1)).mp h'
        simp only [Except.ok.injEq, hv, true_and]
        exact ⟨fun e => ⟨hr, e.symm⟩, fun e => e.2.symm⟩

theorem defaultService_eq (i : Nat) (service : ConfigurationServiceExpose) :
    defaultService i service =
      if service.Service = "" then .error (.serviceName i)
      else if service.Client.Address = "" then .error (.clientAddress i)
      else if service.Client.Port = 0 then .error (.clientPort i)
      else if service.Methods = [] then .error (.noMethod i)
      else
        match defaultMethods i 0 service.Methods with
        | .error e => .error e
        | .ok methods =>
          .ok { Service := service.Service
                Consumer := consumerDefaults service.Consumer
                Client := service.Client
                Methods := methods } := by
  unfold defaultService consumerDefaults
  simp only [utf8ByteSize_eq_zero_iff, Nat.le_zero, List.length_eq_zero]
  by_cases h0 : service.Service = ""
  · simp [h0]
  · by_cases h1 : service.Consumer.Concurrency = 0 <;>
      by_cases h2 : service.Consumer.Block = "" <;>
      by_cases h3 : service.Consumer.Retry.Limit ≤ 0 <;>
      by_cases h4 : service.Consumer.Retry.PageSize ≤ 0 <;>
      by_cases h5 : service.Consumer.Retry.Deadline = "" <;>
      simp [h0, h1, h2, h3, h4, h5]

theorem defaultService_ok_iff (i : Nat) (service service' : ConfigurationServiceExpose) :
    defaultService i service = .ok service' ↔
      service.Valid ∧ service' = serviceDefaults service := by
  rw [defaultService_eq]
  unfold ConfigurationServiceExpose.Valid serviceDefaults
  by_cases h0 : service.Service = ""
  · simp [h0]
  by_cases h1 : service.Client.Address = ""
  · simp [h0, h1]
  by_cases h2 : service.Client.Port = 0
  · simp [h0, h1, h2]
  by_cases h3 : service.Methods = []
  · simp [h0, h1, h2, h3]
  have h2' : 0 < service.Client.Port := Nat.pos_of_ne_zero h2
  simp only [h0, h1, h2, h3, h2', if_false, ne_eq, not_false_eq_true, true_and]
  cases h : defaultMethods i 0 service.Methods with
  | error e =>
    have : ¬ ∀ method ∈ service.Methods, method.Valid := fun hr => by
      have := (defaultMethods_ok_iff i service.Methods _ 0).mpr ⟨hr, rfl⟩
      simp [h] at this
    simp [this]
  | ok methods =>
    obtain ⟨hr, rfl⟩ := (defaultMethods_ok_iff i service.Methods methods 0).mp h
    simp only [Except.ok.injEq]
    exact ⟨fun e => ⟨hr, e.symm⟩, fun e => e.2.symm⟩

theorem defaultServices_ok_iff (l l' : List ConfigurationServiceExpose) (i : Nat) :
    defaultServices i l = .ok l' ↔
      (∀ service ∈ l, service.Valid) ∧ l' = l.map serviceDefaults := by
  induction l generalizing i l' with
  | nil => simp [defaultServices, eq_comm]
  | cons s rest ih =>
    simp only [defaultServices, List.forall_mem_cons, List.map_cons]
    cases h : defaultService i s with
    | error e =>
      have : ¬ s.Valid := fun hv => by
        have := (defaultService_ok_iff i s (serviceDefaults s)).mpr ⟨hv, rfl⟩
        simp [h] at this
      simp [this]
    | ok s' =>
      obtain ⟨hv, rfl⟩ := (defaultService_ok_iff i s s').mp h
      cases h' : defaultServices (i + 1) rest with
      | error e =>
        have : ¬ ∀ service ∈ rest, service.Valid := fun hr => by
          have := (ih (rest.map serviceDefaults) (i + 1)).mpr ⟨hr, rfl⟩
          simp [h'] at this
        simp [this]
      | ok rest' =>
        obtain ⟨hr, rfl⟩ := (ih rest' (i + 1)).mp h'
        simp only [Except.ok.injEq, hv, true_and]
        exact ⟨fun e => ⟨hr, e.symm⟩, fun e => e.2.symm⟩

theorem defaultProtosValues_ok_iff (conf conf' : Configuration) :
    defaultProtosValues conf = .ok conf' ↔ ProtosValid conf ∧ conf' = protosDefaults conf := by
  unfold defaultProtosValues ProtosValid protosDefaults
  simp only [List.length_eq_zero]
  by_cases h0 : conf.Protos.Services = []
  · simp [h0]
  simp only [h0, if_false, ne_eq, not_false_eq_true, true_and]
  cases h : defaultServices 0 conf.Protos.Services with
  | error e =>
    have : ¬ ∀ service ∈ conf.Protos.Services, service.Valid := fun hr => by
      have := (defaultServices_ok_iff conf.Protos.Services _ 0).mpr ⟨hr, rfl⟩
      simp [h] at this
    simp [this]
  | ok services =>
    obtain ⟨hr, rfl⟩ := (defaultServices_ok_iff conf.Protos.Services services 0).mp h
    simp only [Except.ok.injEq]
    exact ⟨fun e => ⟨hr, e.symm⟩, fun e => e.2.symm⟩

theorem cascade_ok_iff (conf conf' : Configuration) (warnings : List Warning) :
    cascade conf = .ok (conf', warnings) ↔
      RedisValid conf ∧ ProtosValid conf ∧
        conf' = protosDefaults (metricsDefaults (serverDefaults (redisDefaults conf))) ∧
        warnings = serverWarnings conf := by
  unfold cascade
  cases h1 : defaultRedisValues conf with
  | error e =>
    have : ¬ RedisValid conf := fun hv => by
      have := (defaultRedisValues_ok_iff conf _).mpr ⟨hv, rfl⟩
      simp [h1] at this
    simp [this]
  | ok c1 =>
    obtain ⟨hv, rfl⟩ := (defaultRedisValues_ok_iff conf c1).mp h1
    simp only [defaultServerValues_eq, defaultMetricsValues_eq, hv, true_and]
    cases h4 : defaultProtosValues (metricsDefaults (serverDefaults (redisDefaults conf))) with
    | error e =>
      have : ¬ ProtosValid conf := fun hp => by
        have := (defaultProtosValues_ok_iff
          (metricsDefaults (serverDefaults (redisDefaults conf))) _).mpr ⟨hp, rfl⟩
        simp [h4] at this
      simp [this]
    | ok c4 =>
      obtain ⟨hp, rfl⟩ := (defaultProtosValues_ok_iff _ c4).mp h4
      have hp' : ProtosValid conf := hp
      simp only [Except.ok.injEq, Prod.mk.injEq, hp', true_and]
      exact ⟨fun e => ⟨e.1.symm, e.2.symm⟩, fun e => ⟨e.1.symm, e.2.symm⟩⟩

theorem checkNode_sentinel_frame (i : Nat) (node : Node) (host : String) (port : Nat)
    (h : node.Sentinel = true) :
    checkNode i { node with Host := host, Port := port } = checkNode i node := by
  simp [checkNode, h]

theorem checkNode_direct_frame (i : Nat) (node : Node) (master : String)
    (sentinels : List SentinelNode) (h : node.Sentinel = false) :
    checkNode i { node with Master := master, SentinelNodes := sentinels } =
      checkNode i node := by
  simp [checkNode, h]

theorem defaultRedisValues_accepts_congr (conf : Configuration) (nodes : List Node)
    (h : (∀ node ∈ conf.Redis.Nodes, node.Valid) ↔ ∀ node ∈ nodes, node.Valid)
    (hne : conf.Redis.Nodes = [] ↔ nodes = []) :
    (∃ conf', defaultRedisValues conf = .ok conf') ↔
      ∃ conf', defaultRedisValues
        { conf with Redis := { conf.Redis with Nodes := nodes } } = .ok conf' := by
  have e1 : ∀ c : Configuration, (∃ conf', defaultRedisValues c = .ok conf') ↔ RedisValid c :=
    fun c => ⟨fun ⟨c', hc⟩ => ((defaultRedisValues_ok_iff c c').mp hc).1,
      fun hv => ⟨_, (defaultRedisValues_ok_iff c _).mpr ⟨hv, rfl⟩⟩⟩
  rw [e1, e1]
  unfold RedisValid
  simp only [ne_eq, hne, h]

theorem redisDefaults_idem (conf : Configuration) :
    redisDefaults (redisDefaults conf) = redisDefaults conf := by
  unfold redisDefaults
  by_cases h1 : conf.Redis.Prefix = "" <;> by_cases h2 : conf.Redis.JobPoolSize ≤ 0 <;>
    simp [h1, h2]

theorem serverDefaults_idem (conf : Configuration) :
    serverDefaults (serverDefaults conf) = serverDefaults conf := by
  unfold serverDefaults
  by_cases h1 : conf.Server.Address = "" <;> by_cases h2 : conf.Server.Port = 0 <;>
    simp [h1, h2]

theorem metricsDefaults_idem (conf : Configuration) :
    metricsDefaults (metricsDefaults conf) = metricsDefaults conf := by
  unfold metricsDefaults
  by_cases h1 : conf.Metrics.Address = "" <;>
    by_cases h2 : conf.Metrics.ShutdownTimeout = "" <;>
    by_cases h3 : conf.Metrics.Port = 0 <;>
    by_cases h4 : conf.Metrics.Routes.Metrics = "" <;>
    by_cases h5 : conf.Metrics.Routes.Readiness = "" <;>
    by_cases h6 : conf.Metrics.Routes.Liveness = "" <;>
    simp [h1, h2, h3, h4, h5, h6]

theorem methodDefaults_idem (method : ConfigurationMethodExpose) :
    methodDefaults (methodDefaults method) = methodDefaults method := by
  unfold methodDefaults
  by_cases h1 : method.Capped = 0 <;> by_cases h2 : method.Stream = "" <;>
    by_cases h3 : method.TimeoutWaitForNext = "" <;> simp [h1, h2, h3]

theorem consumerDefaults_idem (consumer : Consumer) :
    consumerDefaults (consumerDefaults consumer) = consumerDefaults consumer := by
  unfold consumerDefaults
  by_cases h1 : consumer.Concurrency = 0 <;> by_cases h2 : consumer.Block = "" <;>
    by_cases h3 : consumer.Retry.Limit ≤ 0 <;> by_cases h4 : consumer.Retry.PageSize ≤ 0 <;>
    by_cases h5 : consumer.Retry.Deadline = "" <;> simp [h1, h2, h3, h4, h5]

theorem serviceDefaults_idem (service : ConfigurationServiceExpose) :
    serviceDefaults (serviceDefaults service) = serviceDefaults service := by
  simp [serviceDefaults, consumerDefaults_idem, methodDefaults_idem]

theorem protosDefaults_idem (conf : Configuration) :
    protosDefaults (protosDefaults conf) = protosDefaults conf := by
  simp [protosDefaults, serviceDefaults_idem]

theorem methodDefaults_valid (method : ConfigurationMethodExpose) :
    (methodDefaults method).Valid ↔ method.Valid := Iff.rfl

theorem serviceDefaults_valid (service : ConfigurationServiceExpose) :
    (serviceDefaults service).Valid ↔ service.Valid := by
  simp [ConfigurationServiceExpose.Valid, serviceDefaults, methodDefaults_valid]

theorem protosDefaults_valid (conf : Configuration) :
    ProtosValid (protosDefaults conf) ↔ ProtosValid conf := by
  simp [ProtosValid, protosDefaults, serviceDefaults_valid]

theorem cascadeDefaults_idem (conf : Configuration) :
    protosDefaults (metricsDefaults (serverDefaults (redisDefaults
      (protosDefaults (metricsDefaults (serverDefaults (redisDefaults conf))))))) =
    protosDefaults (metricsDefaults (serverDefaults (redisDefaults conf))) := by
  have e1 : ∀ c, redisDefaults (protosDefaults c) = protosDefaults (redisDefaults c) :=
    fun _ => rfl
  have e2 : ∀ c, redisDefaults (metricsDefaults c) = metricsDefaults (redisDefaults c) :=
    fun _ => rfl
  have e3 : ∀ c, redisDefaults (serverDefaults c) = serverDefaults (redisDefaults c) :=
    fun _ => rfl
  have e4 : ∀ c, serverDefaults (protosDefaults c) = protosDefaults (serverDefaults c) :=
    fun _ => rfl
  have e5 : ∀ c, serverDefaults (metricsDefaults c) = metricsDefaults (serverDefaults c) :=
    fun _ => rfl
  have e6 : ∀ c, metricsDefaults (protosDefaults c) = protosDefaults (metricsDefaults c) :=
    fun _ => rfl
  rw [e1, e2, e3, redisDefaults_idem, e4, e5, serverDefaults_idem, e6, metricsDefaults_idem,
    protosDefaults_idem]

theorem node_valid_completeForMode (node : Node) (h : node.Valid) :
    node.CompleteForMode := by
  refine ⟨fun hs => ?_, fun hs => ?_⟩
  · obtain ⟨h1, h2, h3⟩ := h.1 hs
    exact ⟨h1, h2, fun sentinel hm => ⟨(h3 sentinel hm).1, Nat.pos_iff_ne_zero.mp (h3 sentinel hm).2⟩⟩
  · exact ⟨(h.2 hs).1, Nat.pos_iff_ne_zero.mp (h.2 hs).2⟩

theorem metricsDefaults_complete (conf : Configuration) :
    (metricsDefaults conf).Metrics.Complete := by
  unfold metricsDefaults Metrics.Complete
  refine ⟨?_, ?_, ?_, ?_, ?_, ?_⟩ <;> dsimp only <;> split <;> first | assumption | decide

theorem methodDefaults_complete (method : ConfigurationMethodExpose) (h : method.Valid) :
    (methodDefaults method).Complete := by
  obtain ⟨hn, hp⟩ := h
  unfold methodDefaults ConfigurationMethodExpose.Complete
  refine ⟨hn, ?_, ?_, ?_, ?_⟩
  · rcases hp with hp | hp <;> rw [hp] <;> decide
  · dsimp only; split <;> first | assumption | decide
  · dsimp only; split <;> assumption
  · dsimp only; split <;> first | assumption | decide

theorem serviceDefaults_complete (service : ConfigurationServiceExpose) (h : service.Valid) :
    (serviceDefaults service).Complete := by
  obtain ⟨h1, h2, h3, h4, h5⟩ := h
  unfold serviceDefaults consumerDefaults ConfigurationServiceExpose.Complete
  refine ⟨h1, ?_, ?_, ?_, ?_, ?_, h2, Nat.pos_iff_ne_zero.mp h3, by simpa using h4, ?_⟩
  · dsimp only; split <;> first | assumption | decide
  · dsimp only; split <;> first | assumption | decide
  · dsimp only; split
    · decide
    · omega
  · dsimp only; split
    · decide
    · omega
  · dsimp only; split <;> first | assumption | decide
  · intro method hm
    obtain ⟨m, hm', rfl⟩ := List.mem_map.mp hm
    exact methodDefaults_complete m (h5 m hm')

theorem isRedis_not_isProtos (e : Fatal) (h : e.isRedis = true) : e.isProtos = false := by
  cases e <;> simp [Fatal.isRedis, Fatal.isProtos] at h ⊢

theorem checkSentinelNodes_error (i : Nat) (l : List SentinelNode) (t : Nat) (e : Fatal)
    (h : checkSentinelNodes i t l = .error e) :
    ∃ k sentinel, l[k]? = some sentinel ∧ ¬ sentinel.Valid ∧
      (∀ j s, j < k → l[j]? = some s → s.Valid) ∧
      (e = .sentinelAddress (t + k) i ∨ e = .sentinelPort (t + k) i) := by
  induction l generalizing t with
  | nil => simp [checkSentinelNodes] at h
  | cons s rest ih =>
    simp only [checkSentinelNodes, utf8ByteSize_eq_zero_iff] at h
    by_cases h1 : s.Host = ""
    · simp only [h1, if_true, Except.error.injEq] at h
      exact ⟨0, s, List.getElem?_cons_zero, fun hv => hv.1 h1,
        fun j _ hj => absurd hj (Nat.not_lt_zero j), Or.inl h.symm⟩
    · by_cases h2 : s.Port ≤ 0
      · simp only [h1, h2, if_true, if_false, Except.error.injEq] at h
        exact ⟨0, s, List.getElem?_cons_zero, fun hv => by have := hv.2; omega,
          fun j _ hj => absurd hj (Nat.not_lt_zero j), Or.inr h.symm⟩
      · simp only [h1, h2, if_false] at h
        obtain ⟨k, sentinel, hk, hnv, hbefore, he⟩ := ih (t + 1) h
        refine ⟨k + 1, sentinel, by simpa using hk, hnv, ?_, ?_⟩
        · intro j s' hj hs'
          cases j with
          | zero =>
            simp only [List.getElem?_cons_zero, Option.some.injEq] at hs'
            rw [← hs']
            exact ⟨h1, by omega⟩
          | succ j => exact hbefore j s' (by omega) (by simpa using hs')
        · rw [show t + (k + 1) = t + 1 + k by omega]
          exact he

theorem checkNode_error (i : Nat) (node : Node) (e : Fatal)
    (h : checkNode i node = .error e) :
    ¬ node.Valid ∧ e.isRedis = true ∧ e.index = some i ∧
      ∀ t, e.subIndex = some t →
        ∃ sentinel, node.SentinelNodes[t]? = some sentinel ∧ ¬ sentinel.Valid ∧
          ∀ u s, u < t → node.SentinelNodes[u]? = some s → s.Valid := by
  refine ⟨fun hv => by simp [(checkNode_ok_iff i node).mpr hv] at h, ?_⟩
  unfold checkNode at h
  simp only [utf8ByteSize_eq_zero_iff] at h
  cases hs : node.Sentinel
  · simp only [hs, Bool.false_eq_true, if_false] at h
    by_cases h1 : node.Host = ""
    · simp only [h1, if_true, Except.error.injEq] at h
      subst h
      simp [Fatal.isRedis, Fatal.index, Fatal.subIndex]
    · by_cases h2 : node.Port ≤ 0
      · simp only [h1, h2, if_true, if_false, Except.error.injEq] at h
        subst h
        simp [Fatal.isRedis, Fatal.index, Fatal.subIndex]
      · simp [h1, h2] at h
  · simp only [hs, if_true] at h
    by_cases h1 : node.Master = ""
    · simp only [h1, if_true, Except.error.injEq] at h
      subst h
      simp [Fatal.isRedis, Fatal.index, Fatal.subIndex]
    · by_cases h2 : node.SentinelNodes.length = 0
      · simp only [h1, h2, if_true, if_false, Except.error.injEq] at h
        subst h
        simp [Fatal.isRedis, Fatal.index, Fatal.subIndex]
      · simp only [h1, h2, if_false] at h
        obtain ⟨k, sentinel, hk, hnv, hbefore, he⟩ :=
          checkSentinelNodes_error i node.SentinelNodes 0 e h
        rw [Nat.zero_add] at he
        rcases he with rfl | rfl
        · refine ⟨rfl, rfl, fun t ht => ?_⟩
          simp only [Fatal.subIndex, Option.some.injEq] at ht
          subst ht
          exact ⟨sentinel, hk, hnv, hbefore⟩
        · refine ⟨rfl, rfl, fun t ht => ?_⟩
          simp only [Fatal.subIndex, Option.some.injEq] at ht
          subst ht
          exact ⟨sentinel, hk, hnv, hbefore⟩

theorem checkNodes_error (l : List Node) (i : Nat) (e : Fatal)
    (h : checkNodes i l = .error e) :
    ∃ k node, l[k]? = some node ∧ checkNode (i + k) node = .error e ∧
      ∀ j n, j < k → l[j]? = some n → n.Valid := by
  induction l generalizing i with
  | nil => simp [checkNodes] at h
  | cons n rest ih =>
    simp only [checkNodes] at h
    cases hn : checkNode i n with
    | error e' =>
      simp only [hn, Except.error.injEq] at h
      subst h
      exact ⟨0, n, List.getElem?_cons_zero, hn,
        fun j _ hj => absurd hj (Nat.not_lt_zero j)⟩
    | ok u =>
      cases u
      simp only [hn] at h
      obtain ⟨k, node, hk, he, hbefore⟩ := ih (i + 1) h
      refine ⟨k + 1, node, by simpa using hk, ?_, ?_⟩
      · rw [show i + (k + 1) = i + 1 + k by omega]
        exact he
      · intro j n' hj hn'
        cases j with
        | zero =>
          simp only [List.getElem?_cons_zero, Option.some.injEq] at hn'
          rw [← hn']
          exact (checkNode_ok_iff i n).mp hn
        | succ j => exact hbefore j n' (by omega) (by simpa using hn')

theorem defaultRedisValues_error (conf : Configuration) (e : Fatal)
    (h : defaultRedisValues conf = .error e) :
    (conf.Redis.Nodes = [] ∧ e = .noRedisNode) ∨
    (conf.Redis.Nodes ≠ [] ∧
      ∃ k node, conf.Redis.Nodes[k]? = some node ∧ checkNode k node = .error e ∧
        ∀ j n, j < k → conf.Redis.Nodes[j]? = some n → n.Valid) := by
  rw [defaultRedisValues_eq] at h
  by_cases h0 : conf.Redis.Nodes = []
  · simp only [h0, if_true, Except.error.injEq] at h
    exact Or.inl ⟨h0, h.symm⟩
  · simp only [h0, if_false] at h
    cases hc : checkNodes 0 conf.Redis.Nodes with
    | ok u => cases u; simp [hc] at h
    | error e' =>
      simp only [hc, Except.error.injEq] at h
      subst h
      obtain ⟨k, node, hk, he, hbefore⟩ := checkNodes_error _ 0 _ hc
      rw [Nat.zero_add] at he
      exact Or.inr ⟨h0, k, node, hk, he, hbefore⟩

theorem defaultRedisValues_error_isRedis (conf : Configuration) (e : Fatal)
    (h : defaultRedisValues conf = .error e) : e.isRedis = true := by
  rcases defaultRedisValues_error conf e h with ⟨-, rfl⟩ | ⟨-, k, node, -, he, -⟩
  · rfl
  · exact (checkNode_error k node e he).2.1

theorem defaultMethods_error (i : Nat) (l : List ConfigurationMethodExpose) (t : Nat)
    (e : Fatal) (h : defaultMethods i t l = .error e) :
    ∃ k method, l[k]? = some method ∧ ¬ method.Valid ∧
      (∀ j m, j < k → l[j]? = some m → m.Valid) ∧
      (e = .methodName i (t + k) ∨ e = .methodPattern i (t + k)) := by
  induction l generalizing t with
  | nil => simp [defaultMethods] at h
  | cons m rest ih =>
    simp only [defaultMethods] at h
    cases hm : defaultMethod i t m with
    | error e' =>
      simp only [hm, Except.error.injEq] at h
      subst h
      have hnv : ¬ m.Valid := fun hv => by
        have := (defaultMethod_ok_iff i t m _).mpr ⟨hv, rfl⟩
        simp [hm] at this
      refine ⟨0, m, List.getElem?_cons_zero, hnv,
        fun j _ hj => absurd hj (Nat.not_lt_zero j), ?_⟩
      rw [defaultMethod_eq] at hm
      by_cases h1 : m.Name = ""
      · simp only [h1, if_true, Except.error.injEq] at hm
        exact Or.inl hm.symm
      · by_cases h2 : PatternValid m.Pattern
        · simp [h1, h2] at hm
        · simp only [h1, h2, if_false, not_false_eq_true, if_true, Except.error.injEq] at hm
          exact Or.inr hm.symm
    | ok m' =>
      simp only [hm] at h
      cases hr : defaultMethods i (t + 1) rest with
      | ok rest' => simp [hr] at h
      | error e' =>
        simp only [hr, Except.error.injEq] at h
        subst h
        obtain ⟨k, method, hk, hnv, hbefore, he⟩ := ih (t + 1) hr
        refine ⟨k + 1, method, by simpa using hk, hnv, ?_, ?_⟩
        · intro j m'' hj hm''
          cases j with
          | zero =>
            simp only [List.getElem?_cons_zero, Option.some.injEq] at hm''
            rw [← hm'']
            exact ((defaultMethod_ok_iff i t m m').mp hm).1
          | succ j => exact hbefore j m'' (by omega) (by simpa using hm'')
        · rw [show t + (k + 1) = t + 1 + k by omega]
          exact he

theorem defaultService_error (i : Nat) (service : ConfigurationServiceExpose) (e : Fatal)
    (h : defaultService i service = .error e) :
    ¬ service.Valid ∧ e.isProtos = true ∧ e.index = some i ∧
      ∀ t, e.subIndex = some t →
        ∃ method, service.Methods[t]? = some method ∧ ¬ method.Valid ∧
          ∀ u m, u < t → service.Methods[u]? = some m → m.Valid := by
  refine ⟨fun hv => by
    have := (defaultService_ok_iff i service _).mpr ⟨hv, rfl⟩
    simp [h] at this, ?_⟩
  rw [defaultService_eq] at h
  by_cases h0 : service.Service = ""
  · simp only [h0, if_true, Except.error.injEq] at h
    subst h
    simp [Fatal.isProtos, Fatal.index, Fatal.subIndex]
  by_cases h1 : service.Client.Address = ""
  · simp only [h0, h1, if_true, if_false, Except.error.injEq] at h
    subst h
    simp [Fatal.isProtos, Fatal.index, Fatal.subIndex]
  by_cases h2 : service.Client.Port = 0
  · simp only [h0, h1, h2, if_true, if_false, Except.error.injEq] at h
    subst h
    simp [Fatal.isProtos, Fatal.index, Fatal.subIndex]
  by_cases h3 : service.Methods = []
  · simp only [h0, h1, h2, h3, if_true, if_false, Except.error.injEq] at h
    subst h
    simp [Fatal.isProtos, Fatal.index, Fatal.subIndex]
  simp only [h0, h1, h2, h3, if_false] at h
  cases hm : defaultMethods i 0 service.Methods with
  | ok methods => simp [hm] at h
  | error e' =>
    simp only [hm, Except.error.injEq] at h
    subst h
    obtain ⟨k, method, hk, hnv, hbefore, he⟩ := defaultMethods_error i _ 0 _ hm
    rw [Nat.zero_add] at he
    rcases he with rfl | rfl
    · refine ⟨rfl, rfl, fun t ht => ?_⟩
      simp only [Fatal.subIndex, Option.some.injEq] at ht
      subst ht
      exact ⟨method, hk, hnv, hbefore⟩
    · refine ⟨rfl, rfl, fun t ht => ?_⟩
      simp only [Fatal.subIndex, Option.some.injEq] at ht
      subst ht
      exact ⟨method, hk, hnv, hbefore⟩

theorem defaultServices_error (l : List ConfigurationServiceExpose) (i : Nat) (e : Fatal)
    (h : defaultServices i l = .error e) :
    ∃ k service, l[k]? = some service ∧ defaultService (i + k) service = .error e ∧
      ∀ j s, j < k → l[j]? = some s → s.Valid := by
  induction l generalizing i with
  | nil => simp [defaultServices] at h
  | cons s rest ih =>
    simp only [defaultServices] at h
    cases hs : defaultService i s with
    | error e' =>
      simp only [hs, Except.error.injEq] at h
      subst h
      exact ⟨0, s, List.getElem?_cons_zero, hs,
        fun j _ hj => absurd hj (Nat.not_lt_zero j)⟩
    | ok s' =>
      simp only [hs] at h
      cases hr : defaultServices (i + 1) rest with
      | ok rest' => simp [hr] at h
      | error e' =>
        simp only [hr, Except.error.injEq] at h
        subst h
        obtain ⟨k, service, hk, he, hbefore⟩ := ih (i + 1) hr
        refine ⟨k + 1, service, by simpa using hk, ?_, ?_⟩
        · rw [show i + (k + 1) = i + 1 + k by omega]
          exact he
        · intro j s'' hj hs''
          cases j with
          | zero =>
            simp only [List.getElem?_cons_zero, Option.some.injEq] at hs''
            rw [← hs'']
            exact ((defaultService_ok_iff i s s').mp hs).1
          | succ j => exact hbefore j s'' (by omega) (by simpa using hs'')

theorem defaultProtosValues_error (conf : Configuration) (e : Fatal)
    (h : defaultProtosValues conf = .error e) :
    (conf.Protos.Services = [] ∧ e = .noService) ∨
    (conf.Protos.Services ≠ [] ∧
      ∃ k service, conf.Protos.Services[k]? = some service ∧
        defaultService k service = .error e ∧
        ∀ j s, j < k → conf.Protos.Services[j]? = some s → s.Valid) := by
  unfold defaultProtosValues at h
  simp only [List.length_eq_zero] at h
  by_cases h0 : conf.Protos.Services = []
  · simp only [h0, if_true, Except.error.injEq] at h
    exact Or.inl ⟨h0, h.symm⟩
  · simp only [h0, if_false] at h
    cases hc : defaultServices 0 conf.Protos.Services with
    | ok services => simp [hc] at h
    | error e' =>
      simp only [hc, Except.error.injEq] at h
      subst h
      obtain ⟨k, service, hk, he, hbefore⟩ := defaultServices_error _ 0 _ hc
      rw [Nat.zero_add] at he
      exact Or.inr ⟨h0, k, service, hk, he, hbefore⟩

theorem defaultProtosValues_error_isProtos (conf : Configuration) (e : Fatal)
    (h : defaultProtosValues conf = .error e) : e.isProtos = true := by
  rcases defaultProtosValues_error conf e h with ⟨-, rfl⟩ | ⟨-, k, service, -, he, -⟩
  · rfl
  · exact (defaultService_error k service e he).2.1

theorem defaultProtosValues_error_congr (conf conf₂ : Configuration) (e : Fatal)
    (hp : conf.Protos = conf₂.Protos) (h : defaultProtosValues conf = .error e) :
    defaultProtosValues conf₂ = .error e := by
  unfold defaultProtosValues at h ⊢
  rw [← hp]
  by_cases h0 : conf.Protos.Services.length = 0
  · simpa [h0] using h
  · simp only [h0, if_false] at h ⊢
    cases hc : defaultServices 0 conf.Protos.Services with
    | ok services => simp [hc] at h
    | error e' => simpa [hc] using h

theorem cascade_of_redis_error (conf : Configuration) (e : Fatal)
    (h : defaultRedisValues conf = .error e) : cascade conf = .error e := by
  simp [cascade, h]

theorem cascade_of_redis_ok (conf conf₁ : Configuration)
    (h : defaultRedisValues conf = .ok conf₁) :
    cascade conf =
      match defaultProtosValues (metricsDefaults (serverDefaults conf₁)) with
      | .error e => .error e
      | .ok conf' => .ok (conf', serverWarnings conf₁) := by
  simp [cascade, h, defaultServerValues_eq, defaultMetricsValues_eq]

theorem cascade_error (conf : Configuration) (e : Fatal) (h : cascade conf = .error e) :
    defaultRedisValues conf = .error e ∨
      ((∃ conf₁, defaultRedisValues conf = .ok conf₁) ∧
        defaultProtosValues conf = .error e) := by
  cases hr : defaultRedisValues conf with
  | error e' =>
    rw [cascade_of_redis_error conf e' hr] at h
    simp only [Except.error.injEq] at h
    subst h
    exact Or.inl rfl
  | ok conf₁ =>
    rw [cascade_of_redis_ok conf conf₁ hr] at h
    obtain ⟨-, rfl⟩ := (defaultRedisValues_ok_iff conf conf₁).mp hr
    cases hp : defaultProtosValues (metricsDefaults (serverDefaults (redisDefaults conf))) with
    | ok conf' => simp [hp] at h
    | error e' =>
      simp only [hp, Except.error.injEq] at h
      subst h
      exact Or.inr ⟨⟨_, rfl⟩,
        defaultProtosValues_error_congr
          (metricsDefaults (serverDefaults (redisDefaults conf))) conf _ rfl hp⟩

theorem defaultRedisValues_error_congr (conf conf₂ : Configuration) (e : Fatal)
    (hr : conf.Redis = conf₂.Redis) (h : defaultRedisValues conf = .error e) :
    defaultRedisValues conf₂ = .error e := by
  rw [defaultRedisValues_eq] at h ⊢
  rw [← hr]
  by_cases h0 : conf.Redis.Nodes = []
  · simpa [h0] using h
  · simp only [h0, if_false] at h ⊢
    cases hc : checkNodes 0 conf.Redis.Nodes with
    | ok u => cases u; simp [hc] at h
    | error e' => simpa [hc] using h

theorem defaultRedisValues_error_of_invalid (conf : Configuration) (h : ¬ RedisValid conf) :
    ∃ e, defaultRedisValues conf = .error e := by
  cases hr : defaultRedisValues conf with
  | error e => exact ⟨e, rfl⟩
  | ok conf' => exact absurd ((defaultRedisValues_ok_iff conf conf').mp hr).1 h

theorem loadParameters_eq (lookupEnv : String → Option String) :
    loadParameters lookupEnv =
      match lookupEnv "CONFIGURATION_FILE" with
      | none => .error .configurationFileEnv
      | some configurationFile =>
        .ok { enableHotReload := hotReloadOf (lookupEnv "ENABLE_HOT_RELOAD")
              logLevel := logLevelOf (lookupEnv "LOG_LEVEL")
              configurationFile := configurationFile } := by
  unfold loadParameters hotReloadOf logLevelOf
  cases lookupEnv "CONFIGURATION_FILE" with
  | none => rfl
  | some file =>
    cases lookupEnv "ENABLE_HOT_RELOAD" with
    | none =>
      cases lookupEnv "LOG_LEVEL" with
      | none => rfl
      | some level =>
        dsimp only
        split
        · rfl
        · split
          · rfl
          · split <;> rfl
    | some reload =>
      cases lookupEnv "LOG_LEVEL" with
      | none =>
        dsimp only
        split <;> rfl
      | some level =>
        dsimp only
        split <;> split <;> first | rfl | (split <;> first | rfl | (split <;> rfl))

theorem loadParameters_ok_iff (lookupEnv : String → Option String) (parameters : Parameters) :
    loadParameters lookupEnv = .ok parameters ↔
      ∃ configurationFile, lookupEnv "CONFIGURATION_FILE" = some configurationFile ∧
        parameters =
          { enableHotReload := hotReloadOf (lookupEnv "ENABLE_HOT_RELOAD")
            logLevel := logLevelOf (lookupEnv "LOG_LEVEL")
            configurationFile := configurationFile } := by
  rw [loadParameters_eq]
  cases lookupEnv "CONFIGURATION_FILE" with
  | none => simp
  | some file => simp [eq_comm]

theorem fatalOf_defaultMethod_congr (i t : Nat) (m m₂ : ConfigurationMethodExpose)
    (h : requiredOfMethod m = requiredOfMethod m₂) :
    fatalOf (defaultMethod i t m) = fatalOf (defaultMethod i t m₂) := by
  simp only [requiredOfMethod, Prod.mk.injEq] at h
  rw [defaultMethod_eq, defaultMethod_eq, h.1, h.2]
  by_cases h1 : m₂.Name = ""
  · simp [h1, fatalOf]
  · by_cases h2 : PatternValid m₂.Pattern <;> simp [h1, h2, fatalOf]

theorem fatalOf_defaultMethods_cons (i t : Nat) (m : ConfigurationMethodExpose)
    (rest : List ConfigurationMethodExpose) :
    fatalOf (defaultMethods i t (m :: rest)) =
      match fatalOf (defaultMethod i t m) with
      | some e => some e
      | none => fatalOf (defaultMethods i (t + 1) rest) := by
  simp only [defaultMethods]
  cases defaultMethod i t m with
  | error e => rfl
  | ok m' =>
    cases defaultMethods i (t + 1) rest with
    | error e => rfl
    | ok rest' => rfl

theorem fatalOf_defaultMethods_congr (i : Nat) (l l₂ : List ConfigurationMethodExpose)
    (t : Nat) (h : l.map requiredOfMethod = l₂.map requiredOfMethod) :
    fatalOf (defaultMethods i t l) = fatalOf (defaultMethods i t l₂) := by
  induction l generalizing l₂ t with
  | nil =>
    cases l₂ with
    | nil => rfl
    | cons m₂ rest₂ => simp at h
  | cons m rest ih =>
    cases l₂ with
    | nil => simp at h
    | cons m₂ rest₂ =>
      simp only [List.map_cons, List.cons.injEq] at h
      rw [fatalOf_defaultMethods_cons, fatalOf_defaultMethods_cons,
        fatalOf_defaultMethod_congr i t m m₂ h.1, ih rest₂ (t + 1) h.2]

theorem fatalOf_defaultService_congr (i : Nat) (s s₂ : ConfigurationServiceExpose)
    (h : requiredOfService s = requiredOfService s₂) :
    fatalOf (defaultService i s) = fatalOf (defaultService i s₂) := by
  simp only [requiredOfService, Prod.mk.injEq] at h
  obtain ⟨h1, h2, h3, h4⟩ := h
  have h5 : s.Methods = [] ↔ s₂.Methods = [] := by
    constructor
    · intro e
      rw [e] at h4
      simpa using h4.symm
    · intro e
      rw [e] at h4
      simpa using h4
  have h6 := fatalOf_defaultMethods_congr i s.Methods s₂.Methods 0 h4
  rw [defaultService_eq, defaultService_eq, h1, h2, h3]
  by_cases e1 : s₂.Service = ""
  · simp [e1, fatalOf]
  by_cases e2 : s₂.Client.Address = ""
  · simp [e1, e2, fatalOf]
  by_cases e3 : s₂.Client.Port = 0
  · simp [e1, e2, e3, fatalOf]
  by_cases e4 : s₂.Methods = []
  · simp [e1, e2, e3, e4, h5.mpr e4, fatalOf]
  · have e4' : ¬ s.Methods = [] := fun e => e4 (h5.mp e)
    simp only [e1, e2, e3, e4, e4', if_false]
    cases hm : defaultMethods i 0 s.Methods with
    | error e =>
      cases hm₂ : defaultMethods i 0 s₂.Methods with
      | error e' => simpa [hm, hm₂, fatalOf] using h6
      | ok ms' => simp [hm, hm₂, fatalOf] at h6
    | ok ms =>
      cases hm₂ : defaultMethods i 0 s₂.Methods with
      | error e' => simp [hm, hm₂, fatalOf] at h6
      | ok ms' => rfl

theorem fatalOf_defaultServices_cons (i : Nat) (s : ConfigurationServiceExpose)
    (rest : List ConfigurationServiceExpose) :
    fatalOf (defaultServices i (s :: rest)) =
      match fatalOf (defaultService i s) with
      | some e => some e
      | none => fatalOf (defaultServices (i + 1) rest) := by
  simp only [defaultServices]
  cases defaultService i s with
  | error e => rfl
  | ok s' =>
    cases defaultServices (i + 1) rest with
    | error e => rfl
    | ok rest' => rfl

theorem fatalOf_defaultServices_congr (l l₂ : List ConfigurationServiceExpose) (i : Nat)
    (h : l.map requiredOfService = l₂.map requiredOfService) :
    fatalOf (defaultServices i l) = fatalOf (defaultServices i l₂) := by
  induction l generalizing l₂ i with
  | nil =>
    cases l₂ with
    | nil => rfl
    | cons s₂ rest₂ => simp at h
  | cons s rest ih =>
    cases l₂ with
    | nil => simp at h
    | cons s₂ rest₂ =>
      simp only [List.map_cons, List.cons.injEq] at h
      rw [fatalOf_defaultServices_cons, fatalOf_defaultServices_cons,
        fatalOf_defaultService_congr i s s₂ h.1, ih rest₂ (i + 1) h.2]

theorem fatalOf_defaultProtosValues_congr (conf conf₂ : Configuration)
    (h : conf.Protos.Services.map requiredOfService =
      conf₂.Protos.Services.map requiredOfService) :
    fatalOf (defaultProtosValues conf) = fatalOf (defaultProtosValues conf₂) := by
  have h0 : conf.Protos.Services = [] ↔ conf₂.Protos.Services = [] := by
    constructor
    · intro e
      rw [e] at h
      simpa using h.symm
    · intro e
      rw [e] at h
      simpa using h
  have h1 := fatalOf_defaultServices_congr _ _ 0 h
  unfold defaultProtosValues
  simp only [List.length_eq_zero]
  by_cases e : conf₂.Protos.Services = []
  · simp [e, h0.mpr e, fatalOf]
  · have e' : ¬ conf.Protos.Services = [] := fun x => e (h0.mp x)
    simp only [e, e', if_false]
    cases hs : defaultServices 0 conf.Protos.Services with
    | error x =>
      cases hs₂ : defaultServices 0 conf₂.Protos.Services with
      | error x' => simpa [hs, hs₂, fatalOf] using h1
      | ok ss' => simp [hs, hs₂, fatalOf] at h1
    | ok ss =>
      cases hs₂ : defaultServices 0 conf₂.Protos.Services with
      | error x' => simp [hs, hs₂, fatalOf] at h1
      | ok ss' => rfl

theorem fatalOf_defaultRedisValues_congr (conf conf₂ : Configuration)
    (h : conf.Redis.Nodes = conf₂.Redis.Nodes) :
    fatalOf (defaultRedisValues conf) = fatalOf (defaultRedisValues conf₂) := by
  rw [defaultRedisValues_eq, defaultRedisValues_eq, h]
  by_cases e : conf₂.Redis.Nodes = []
  · simp [e, fatalOf]
  · simp only [e, if_false]
    cases checkNodes 0 conf₂.Redis.Nodes with
    | error x => rfl
    | ok u => cases u; rfl

theorem fatalOf_cascade (conf : Configuration) :
    fatalOf (cascade conf) =
      match fatalOf (defaultRedisValues conf) with
      | some e => some e
      | none => fatalOf (defaultProtosValues conf) := by
  cases hr : defaultRedisValues conf with
  | error e => rw [cascade_of_redis_error conf e hr]; rfl
  | ok conf₁ =>
    rw [cascade_of_redis_ok conf conf₁ hr]
    obtain ⟨-, rfl⟩ := (defaultRedisValues_ok_iff conf conf₁).mp hr
    have hp := fatalOf_defaultProtosValues_congr
      (metricsDefaults (serverDefaults (redisDefaults conf))) conf rfl
    show _ = fatalOf (defaultProtosValues conf)
    rw [← hp]
    cases defaultProtosValues (metricsDefaults (serverDefaults (redisDefaults conf))) with
    | error e => rfl
    | ok c => rfl

theorem fatalOf_eq_some_iff {α : Type} (x : Except Fatal α) (e : Fatal) :
    fatalOf x = some e ↔ x = .error e := by
  cases x <;> simp [fatalOf]

theorem fatalOf_eq_none_iff {α : Type} (x : Except Fatal α) :
    fatalOf x = none ↔ ∃ a, x = .ok a := by
  cases x <;> simp [fatalOf]

/-! ## The claims -/

/-- C1: `defaultRedisValues` accepts a configuration, i.e. returns without
reaching a `log.Fatalf`, if and only if `Redis.Nodes` is non-empty and every
node satisfies: when `Sentinel` is true, `Master` is non-empty,
`SentinelNodes` is non-empty and every sentinel entry has a non-empty `Host`
and `Port > 0`; when `Sentinel` is false, `Host` is non-empty and `Port > 0`.
`Prefix` and `JobPoolSize` play no part. -/
theorem defaultRedisValues_accepts_iff (conf : Configuration) :
    (∃ conf', defaultRedisValues conf = .ok conf') ↔
      conf.Redis.Nodes ≠ [] ∧
      ∀ node ∈ conf.Redis.Nodes,
        (node.Sentinel = true →
          node.Master ≠ "" ∧ node.SentinelNodes ≠ [] ∧
            ∀ sentinel ∈ node.SentinelNodes, sentinel.Host ≠ "" ∧ 0 < sentinel.Port) ∧
        (node.Sentinel = false → node.Host ≠ "" ∧ 0 < node.Port) :=
  ⟨fun ⟨conf', h⟩ => ((defaultRedisValues_ok_iff conf conf').mp h).1,
    fun h => ⟨_, (defaultRedisValues_ok_iff conf _).mpr ⟨h, rfl⟩⟩⟩

/-- C2: `defaultProtosValues` accepts a configuration if and only if
`Protos.Services` is non-empty and every service has a non-empty `Service`
name, a non-empty `Client.Address`, `Client.Port > 0`, a non-empty `Methods`
list, and every method has a non-empty `Name` and a `Pattern` equal to
`"queue"` or `"fireAndForget"`. In particular a configuration with a service
whose `Client.Port` is `0` is rejected, whatever the consumer fields are. -/
theorem defaultProtosValues_accepts_iff (conf : Configuration) :
    ((∃ conf', defaultProtosValues conf = .ok conf') ↔
      conf.Protos.Services ≠ [] ∧
      ∀ service ∈ conf.Protos.Services,
        service.Service ≠ "" ∧ service.Client.Address ≠ "" ∧ 0 < service.Client.Port ∧
          service.Methods ≠ [] ∧
          ∀ method ∈ service.Methods,
            method.Name ≠ "" ∧
              (method.Pattern = "queue" ∨ method.Pattern = "fireAndForget")) ∧
    ((∃ service ∈ conf.Protos.Services, service.Client.Port = 0) →
      ∃ e, defaultProtosValues conf = .error e) := by
  refine ⟨⟨fun ⟨conf', h⟩ => ((defaultProtosValues_ok_iff conf conf').mp h).1,
    fun h => ⟨_, (defaultProtosValues_ok_iff conf _).mpr ⟨h, rfl⟩⟩⟩, ?_⟩
  rintro ⟨service, hmem, hport⟩
  cases h : defaultProtosValues conf with
  | error e => exact ⟨e, rfl⟩
  | ok conf' =>
    have hv := ((defaultProtosValues_ok_iff conf conf').mp h).1.2 service hmem
    have := hv.2.2.1
    omega

/-- C3: sentinel branching exclusivity. The check of a node with
`Sentinel = true` is unchanged by any change of its `Host` and `Port`, and
such a node is accepted as soon as `Master` and `SentinelNodes` are valid;
the check of a node with `Sentinel = false` is unchanged by any change of its
`Master` and `SentinelNodes`, and such a node is accepted as soon as `Host`
is non-empty and `Port > 0`. Hence replacing these fields of one node of
`Redis.Nodes` does not change whether `defaultRedisValues` accepts. -/
theorem sentinel_branching_exclusive :
    (∀ (i : Nat) (node : Node) (host : String) (port : Nat), node.Sentinel = true →
      checkNode i { node with Host := host, Port := port } = checkNode i node) ∧
    (∀ (i : Nat) (node : Node), node.Sentinel = true → node.Master ≠ "" →
      node.SentinelNodes ≠ [] →
      (∀ sentinel ∈ node.SentinelNodes, sentinel.Host ≠ "" ∧ 0 < sentinel.Port) →
      checkNode i { node with Host := "", Port := 0 } = .ok ()) ∧
    (∀ (i : Nat) (node : Node) (master : String) (sentinels : List SentinelNode),
      node.Sentinel = false →
      checkNode i { node with Master := master, SentinelNodes := sentinels } =
        checkNode i node) ∧
    (∀ (i : Nat) (node : Node) (master : String) (sentinels : List SentinelNode),
      node.Sentinel = false → node.Host ≠ "" → 0 < node.Port →
      checkNode i { node with Master := master, SentinelNodes := sentinels } = .ok ()) ∧
    (∀ (conf : Configuration) (pre post : List Node) (node : Node) (host : String)
      (port : Nat), conf.Redis.Nodes = pre ++ node :: post → node.Sentinel = true →
      ((∃ conf', defaultRedisValues conf = .ok conf') ↔
        ∃ conf', defaultRedisValues
          { conf with Redis := { conf.Redis with
              Nodes := pre ++ { node with Host := host, Port := port } :: post } } =
            .ok conf')) ∧
    (∀ (conf : Configuration) (pre post : List Node) (node : Node) (master : String)
      (sentinels : List SentinelNode),
      conf.Redis.Nodes = pre ++ node :: post → node.Sentinel = false →
      ((∃ conf', defaultRedisValues conf = .ok conf') ↔
        ∃ conf', defaultRedisValues
          { conf with Redis := { conf.Redis with
              Nodes := pre ++ { node with Master := master, SentinelNodes := sentinels }
                :: post } } = .ok conf')) := by
  refine ⟨checkNode_sentinel_frame, ?_, checkNode_direct_frame, ?_, ?_, ?_⟩
  · intro i node hs hm hn hv
    rw [checkNode_sentinel_frame i node "" 0 hs, checkNode_ok_iff]
    exact ⟨fun _ => ⟨hm, hn, hv⟩, fun h => by simp [hs] at h⟩
  · intro i node master sentinels hs hh hp
    rw [checkNode_direct_frame i node master sentinels hs, checkNode_ok_iff]
    exact ⟨fun h => by simp [hs] at h, fun _ => ⟨hh, hp⟩⟩
  · intro conf pre post node host port hn hs
    apply defaultRedisValues_accepts_congr
    · simp only [hn, List.forall_mem_append, List.forall_mem_cons, ← checkNode_ok_iff 0,
        checkNode_sentinel_frame 0 node host port hs]
    · simp [hn]
  · intro conf pre post node master sentinels hn hs
    apply defaultRedisValues_accepts_congr
    · simp only [hn, List.forall_mem_append, List.forall_mem_cons, ← checkNode_ok_iff 0,
        checkNode_direct_frame 0 node master sentinels hs]
    · simp [hn]

/-- Witness of C1: the document with one direct node is accepted, the
document with no node is not. -/
theorem defaultRedisValues_accepts_iff_witness :
    (∃ conf', defaultRedisValues (sampleConfiguration [directNode] "queue") = .ok conf') ∧
    ¬ ∃ conf', defaultRedisValues (sampleConfiguration [] "queue") = .ok conf' :=
  ⟨(defaultRedisValues_accepts_iff _).mpr (by decide),
    fun h => absurd ((defaultRedisValues_accepts_iff _).mp h) (by decide)⟩

/-- Witness of C2: the sample service is accepted, and rejected once its
client port is `0`. -/
theorem defaultProtosValues_accepts_iff_witness :
    (∃ conf', defaultProtosValues (sampleConfiguration [directNode] "queue") = .ok conf') ∧
    ∃ e, defaultProtosValues
      { sampleConfiguration [directNode] "queue" with
        Protos := { Services :=
          [{ pingService "queue" with Client := { Address := "10.0.0.1", Port := 0 } }] } } =
        .error e :=
  ⟨(defaultProtosValues_accepts_iff _).1.mpr (by decide),
    (defaultProtosValues_accepts_iff _).2 ⟨_, List.mem_singleton.mpr rfl, rfl⟩⟩

/-- Witness of C3: the sentinel node, which has an empty host and port `0`,
passes its check, and so does the direct node, which has no master and no
sentinel entry. -/
theorem sentinel_branching_exclusive_witness :
    checkNode 0 sentinelNode = .ok () ∧ checkNode 0 directNode = .ok () :=
  ⟨sentinel_branching_exclusive.2.1 0 sentinelNode rfl (by decide) (by decide) (by decide),
    sentinel_branching_exclusive.2.2.2.1 0 directNode "" [] rfl (by decide) (by decide)⟩

/-- C4: enumeration closure over the whole cascade. A configuration in which
some method of some service has a `Pattern` other than exactly `"queue"` or
`"fireAndForget"` makes the cascade end in a fatal condition, so no
configuration is produced; and a configuration that is valid in every other
respect is accepted whenever each of its methods has the pattern `"queue"` or
`"fireAndForget"`. -/
theorem pattern_enumeration_closure :
    (∀ conf : Configuration,
      (∃ service ∈ conf.Protos.Services, ∃ method ∈ service.Methods,
        ¬ (method.Pattern = "queue" ∨ method.Pattern = "fireAndForget")) →
      ∃ e, cascade conf = .error e) ∧
    (∀ conf : Configuration,
      RedisValid conf → conf.Protos.Services ≠ [] →
      (∀ service ∈ conf.Protos.Services,
        service.Service ≠ "" ∧ service.Client.Address ≠ "" ∧ 0 < service.Client.Port ∧
          service.Methods ≠ [] ∧ ∀ method ∈ service.Methods, method.Name ≠ "") →
      (∀ service ∈ conf.Protos.Services, ∀ method ∈ service.Methods,
        method.Pattern = "queue" ∨ method.Pattern = "fireAndForget") →
      ∃ conf' warnings, cascade conf = .ok (conf', warnings)) := by
  constructor
  · rintro conf ⟨service, hs, method, hm, hp⟩
    cases h : cascade conf with
    | error e => exact ⟨e, rfl⟩
    | ok r =>
      obtain ⟨conf', warnings⟩ := r
      have hv := ((cascade_ok_iff conf conf' warnings).mp h).2.1
      exact absurd ((hv.2 service hs).2.2.2.2 method hm).2 hp
  · intro conf hr hne hs hp
    refine ⟨_, _, (cascade_ok_iff conf _ _).mpr ⟨hr, ⟨hne, fun service hmem => ?_⟩, rfl, rfl⟩⟩
    obtain ⟨h1, h2, h3, h4, h5⟩ := hs service hmem
    exact ⟨h1, h2, h3, h4, fun method hm => ⟨h5 method hm, hp service hmem method hm⟩⟩

/-- Witness of C4: the patterns `"broadcast"`, `"Queue"` and `""` end the
cascade, the patterns `"queue"` and `"fireAndForget"` are accepted. -/
theorem pattern_enumeration_closure_witness :
    (∃ e, cascade (sampleConfiguration [directNode] "broadcast") = .error e) ∧
    (∃ e, cascade (sampleConfiguration [directNode] "Queue") = .error e) ∧
    (∃ e, cascade (sampleConfiguration [directNode] "") = .error e) ∧
    (∃ conf' warnings,
      cascade (sampleConfiguration [directNode] "queue") = .ok (conf', warnings)) ∧
    (∃ conf' warnings,
      cascade (sampleConfiguration [directNode] "fireAndForget") = .ok (conf', warnings)) :=
  ⟨pattern_enumeration_closure.1 _
      ⟨_, List.mem_singleton.mpr rfl, _, List.mem_singleton.mpr rfl, by decide⟩,
    pattern_enumeration_closure.1 _
      ⟨_, List.mem_singleton.mpr rfl, _, List.mem_singleton.mpr rfl, by decide⟩,
    pattern_enumeration_closure.1 _
      ⟨_, List.mem_singleton.mpr rfl, _, List.mem_singleton.mpr rfl, by decide⟩,
    pattern_enumeration_closure.2 _ (by decide) (by decide) (by decide) (by decide),
    pattern_enumeration_closure.2 _ (by decide) (by decide) (by decide) (by decide)⟩

/-- C5: default substitution in `defaultProtosValues`. When the pass accepts,
the output has the same number of services and, service by service, the same
number of methods, and every service has `Consumer.Concurrency = 50` if the
input was `0`, `Consumer.Block = "5000ms"` if the input was empty,
`Retry.Limit = 3` and `Retry.PageSize = 1000` if the input was not positive,
`Retry.Deadline = "10000ms"` if the input was empty; every method has
`Capped = 10000` if the input was `0`, `Stream` equal to its own `Name` if
the input `Stream` was empty, and `TimeoutWaitForNext = "1s"` if the input
was empty. -/
theorem defaultProtosValues_substitutes (conf conf' : Configuration)
    (h : defaultProtosValues conf = .ok conf') :
    conf'.Protos.Services.length = conf.Protos.Services.length ∧
    ∀ (i : Nat) (service service' : ConfigurationServiceExpose),
      conf.Protos.Services[i]? = some service →
      conf'.Protos.Services[i]? = some service' →
      (service.Consumer.Concurrency = 0 → service'.Consumer.Concurrency = 50) ∧
      (service.Consumer.Block = "" → service'.Consumer.Block = "5000ms") ∧
      (service.Consumer.Retry.Limit ≤ 0 → service'.Consumer.Retry.Limit = 3) ∧
      (service.Consumer.Retry.PageSize ≤ 0 → service'.Consumer.Retry.PageSize = 1000) ∧
      (service.Consumer.Retry.Deadline = "" →
        service'.Consumer.Retry.Deadline = "10000ms") ∧
      service'.Methods.length = service.Methods.length ∧
      ∀ (t : Nat) (method method' : ConfigurationMethodExpose),
        service.Methods[t]? = some method →
        service'.Methods[t]? = some method' →
        (method.Capped = 0 → method'.Capped = 10000) ∧
        (method.Stream = "" → method'.Stream = method'.Name ∧ method'.Name = method.Name) ∧
        (method.TimeoutWaitForNext = "" → method'.TimeoutWaitForNext = "1s") := by
  obtain ⟨-, rfl⟩ := (defaultProtosValues_ok_iff conf conf').mp h
  refine ⟨by simp [protosDefaults], ?_⟩
  intro i service service' hs hs'
  simp only [protosDefaults, List.getElem?_map, hs, Option.map_some', Option.some.injEq] at hs'
  subst hs'
  refine ⟨fun e => by simp [serviceDefaults, consumerDefaults, e],
    fun e => by simp [serviceDefaults, consumerDefaults, e],
    fun e => by simp [serviceDefaults, consumerDefaults, e],
    fun e => by simp [serviceDefaults, consumerDefaults, e],
    fun e => by simp [serviceDefaults, consumerDefaults, e],
    by simp [serviceDefaults], ?_⟩
  intro t method method' hm hm'
  simp only [serviceDefaults, List.getElem?_map, hm, Option.map_some', Option.some.injEq] at hm'
  subst hm'
  exact ⟨fun e => by simp [methodDefaults, e], fun e => by simp [methodDefaults, e],
    fun e => by simp [methodDefaults, e]⟩

/-- Witness of C5: one service with one method of pattern `"queue"` and
`capped` unset is accepted, with `capped` equal to `10000` and `stream` equal
to the name of the method. -/
theorem defaultProtosValues_substitutes_witness :
    ∃ conf' service' method',
      defaultProtosValues (sampleConfiguration [directNode] "queue") = .ok conf' ∧
      conf'.Protos.Services = [service'] ∧ service'.Methods = [method'] ∧
      method'.Capped = 10000 ∧ method'.Stream = "Ping" ∧ method'.Name = "Ping" ∧
      method'.TimeoutWaitForNext = "1s" ∧ service'.Consumer.Concurrency = 50 :=
  have h := defaultProtosValues_substitutes (sampleConfiguration [directNode] "queue")
    (protosDefaults (sampleConfiguration [directNode] "queue")) rfl
  have hs := h.2 0 (pingService "queue") (serviceDefaults (pingService "queue")) rfl rfl
  have hm := hs.2.2.2.2.2.2 0 (pingMethod "queue") (methodDefaults (pingMethod "queue"))
    rfl rfl
  ⟨_, _, _, rfl, rfl, rfl, hm.1 rfl, ((hm.2.1 rfl).1.trans (hm.2.1 rfl).2), (hm.2.1 rfl).2,
    hm.2.2 rfl, hs.1 rfl⟩

/-- C6: idempotence of defaulting. For each of the four passes, and for the
cascade Redis, Server, Metrics, Protos, a configuration that is accepted with
result `conf'` yields a `conf'` that is accepted again and returned exactly
as it is. -/
theorem defaulting_idempotent :
    (∀ conf conf' : Configuration,
      defaultRedisValues conf = .ok conf' → defaultRedisValues conf' = .ok conf') ∧
    (∀ (conf conf' : Configuration) (warnings : List Warning),
      defaultServerValues conf = .ok (conf', warnings) →
      defaultServerValues conf' = .ok (conf', warnings)) ∧
    (∀ conf conf' : Configuration,
      defaultMetricsValues conf = .ok conf' → defaultMetricsValues conf' = .ok conf') ∧
    (∀ conf conf' : Configuration,
      defaultProtosValues conf = .ok conf' → defaultProtosValues conf' = .ok conf') ∧
    (∀ (conf conf' : Configuration) (warnings : List Warning),
      cascade conf = .ok (conf', warnings) → cascade conf' = .ok (conf', warnings)) := by
  refine ⟨?_, ?_, ?_, ?_, ?_⟩
  · intro conf conf' h
    obtain ⟨hv, rfl⟩ := (defaultRedisValues_ok_iff conf conf').mp h
    exact (defaultRedisValues_ok_iff _ _).mpr ⟨hv, (redisDefaults_idem conf).symm⟩
  · intro conf conf' warnings h
    rw [defaultServerValues_eq] at h
    simp only [Except.ok.injEq, Prod.mk.injEq] at h
    obtain ⟨rfl, rfl⟩ := h
    rw [defaultServerValues_eq, serverDefaults_idem]
    rfl
  · intro conf conf' h
    rw [defaultMetricsValues_eq] at h
    simp only [Except.ok.injEq] at h
    subst h
    rw [defaultMetricsValues_eq, metricsDefaults_idem]
  · intro conf conf' h
    obtain ⟨hv, rfl⟩ := (defaultProtosValues_ok_iff conf conf').mp h
    exact (defaultProtosValues_ok_iff _ _).mpr
      ⟨(protosDefaults_valid conf).mpr hv, (protosDefaults_idem conf).symm⟩
  · intro conf conf' warnings h
    obtain ⟨hr, hp, rfl, rfl⟩ := (cascade_ok_iff conf conf' warnings).mp h
    exact (cascade_ok_iff _ _ _).mpr
      ⟨hr, (protosDefaults_valid _).mpr hp, (cascadeDefaults_idem conf).symm, rfl⟩

/-- Witness of C6: the sample document, in which every defaultable field is
unset, is accepted by the cascade, and so is its result, unchanged. -/
theorem defaulting_idempotent_witness :
    ∃ conf' warnings,
      cascade (sampleConfiguration [directNode, sentinelNode] "queue") =
        .ok (conf', warnings) ∧
      cascade conf' = .ok (conf', warnings) ∧
      conf' ≠ sampleConfiguration [directNode, sentinelNode] "queue" :=
  ⟨protosDefaults (metricsDefaults (serverDefaults (redisDefaults
      (sampleConfiguration [directNode, sentinelNode] "queue")))),
    serverWarnings (sampleConfiguration [directNode, sentinelNode] "queue"),
    rfl,
    defaulting_idempotent.2.2.2.2
      (sampleConfiguration [directNode, sentinelNode] "queue") _ _ rfl,
    by decide⟩

/-- C7, as amended: when the cascade completes without a fatal condition,
every field the data model lists is set in the result (no string empty, no
number zero, no list empty), with two exceptions: `Server.MaxHeaderListSize`,
and, for each node, the fields of the other mode: only `master`,
`sentinelNodes` and their hosts and ports are set for a sentinel node, only
`host` and `port` for a direct node. -/
theorem cascade_complete_for_mode (conf conf' : Configuration) (warnings : List Warning)
    (h : cascade conf = .ok (conf', warnings)) : CompleteForMode conf' := by
  obtain ⟨hr, hp, rfl, -⟩ := (cascade_ok_iff conf conf' warnings).mp h
  refine ⟨?_, ?_, hr.1, fun node hm => node_valid_completeForMode node (hr.2 node hm),
    ?_, ?_, metricsDefaults_complete _, ?_, ?_⟩
  · show (if conf.Redis.Prefix = "" then "polygate" else conf.Redis.Prefix) ≠ ""
    split <;> first | assumption | decide
  · show (if conf.Redis.JobPoolSize ≤ 0 then 5 else conf.Redis.JobPoolSize) ≠ 0
    split
    · decide
    · omega
  · show (if conf.Server.Address = "" then "0.0.0.0" else conf.Server.Address) ≠ ""
    split <;> first | assumption | decide
  · show (if conf.Server.Port = 0 then 4774 else conf.Server.Port) ≠ 0
    split <;> first | assumption | decide
  · show conf.Protos.Services.map serviceDefaults ≠ []
    simpa using hp.1
  · intro service hm
    obtain ⟨s, hs, rfl⟩ := List.mem_map.mp hm
    exact serviceDefaults_complete s (hp.2 s hs)

/-- Witness of C7 as amended, at the sample document with a direct node, a
sentinel node and a direct node with a stray sentinel entry. -/
theorem cascade_complete_for_mode_witness :
    CompleteForMode
      (protosDefaults (metricsDefaults (serverDefaults (redisDefaults
        (sampleConfiguration [directNode, sentinelNode, strayNode] "queue"))))) :=
  cascade_complete_for_mode
    (sampleConfiguration [directNode, sentinelNode, strayNode] "queue") _
    (serverWarnings (sampleConfiguration [directNode, sentinelNode, strayNode] "queue")) rfl

/-- Counterexample to C7 as stated: the sample document with a direct node,
a sentinel node and a direct node with a stray sentinel entry is accepted by
the cascade, and in the result `Server.MaxHeaderListSize` is `0`, the direct
node has no master and no sentinel entry, the sentinel node has no host and
port `0`, and the stray sentinel entry has no host and port `0`. -/
theorem cascade_complete_counterexample :
    ∃ conf' warnings,
      cascade (sampleConfiguration [directNode, sentinelNode, strayNode] "queue") =
        .ok (conf', warnings) ∧
      ¬ Complete conf' ∧
      conf'.Server.MaxHeaderListSize = 0 ∧
      conf'.Redis.Nodes = [directNode, sentinelNode, strayNode] ∧
      directNode.Master = "" ∧ directNode.SentinelNodes = [] ∧
      sentinelNode.Host = "" ∧ sentinelNode.Port = 0 ∧
      strayNode.SentinelNodes = [{ Host := "", Port := 0 }] :=
  ⟨protosDefaults (metricsDefaults (serverDefaults (redisDefaults
      (sampleConfiguration [directNode, sentinelNode, strayNode] "queue")))),
    serverWarnings (sampleConfiguration [directNode, sentinelNode, strayNode] "queue"),
    rfl, fun hc => hc.2.2.2.2.2.2.1 rfl, rfl, rfl, rfl, rfl, rfl, rfl, rfl⟩

/-- C8: defaults never overwrite a value that is already set. When the
cascade accepts, `Redis.Prefix`, `Redis.JobPoolSize`, `Server.Address`,
`Server.Port`, `Metrics.Address`, `Metrics.ShutdownTimeout`, `Metrics.Port`
and the three `Metrics.Routes` keep their input value when it is a non-empty
string or a strictly positive number; the services and their methods
correspond index by index, and every service keeps a set
`Consumer.Concurrency`, `Block`, `Retry.Limit`, `Retry.PageSize`,
`Retry.Deadline`, every method a set `Capped`, `Stream` and
`TimeoutWaitForNext`. -/
theorem cascade_keeps_set_values (conf conf' : Configuration) (warnings : List Warning)
    (h : cascade conf = .ok (conf', warnings)) :
    (conf.Redis.Prefix ≠ "" → conf'.Redis.Prefix = conf.Redis.Prefix) ∧
    (0 < conf.Redis.JobPoolSize → conf'.Redis.JobPoolSize = conf.Redis.JobPoolSize) ∧
    (conf.Server.Address ≠ "" → conf'.Server.Address = conf.Server.Address) ∧
    (0 < conf.Server.Port → conf'.Server.Port = conf.Server.Port) ∧
    (conf.Metrics.Address ≠ "" → conf'.Metrics.Address = conf.Metrics.Address) ∧
    (conf.Metrics.ShutdownTimeout ≠ "" →
      conf'.Metrics.ShutdownTimeout = conf.Metrics.ShutdownTimeout) ∧
    (0 < conf.Metrics.Port → conf'.Metrics.Port = conf.Metrics.Port) ∧
    (conf.Metrics.Routes.Metrics ≠ "" →
      conf'.Metrics.Routes.Metrics = conf.Metrics.Routes.Metrics) ∧
    (conf.Metrics.Routes.Readiness ≠ "" →
      conf'.Metrics.Routes.Readiness = conf.Metrics.Routes.Readiness) ∧
    (conf.Metrics.Routes.Liveness ≠ "" →
      conf'.Metrics.Routes.Liveness = conf.Metrics.Routes.Liveness) ∧
    conf'.Protos.Services.length = conf.Protos.Services.length ∧
    ∀ (i : Nat) (service service' : ConfigurationServiceExpose),
      conf.Protos.Services[i]? = some service →
      conf'.Protos.Services[i]? = some service' →
      (0 < service.Consumer.Concurrency →
        service'.Consumer.Concurrency = service.Consumer.Concurrency) ∧
      (service.Consumer.Block ≠ "" → service'.Consumer.Block = service.Consumer.Block) ∧
      (0 < service.Consumer.Retry.Limit →
        service'.Consumer.Retry.Limit = service.Consumer.Retry.Limit) ∧
      (0 < service.Consumer.Retry.PageSize →
        service'.Consumer.Retry.PageSize = service.Consumer.Retry.PageSize) ∧
      (service.Consumer.Retry.Deadline ≠ "" →
        service'.Consumer.Retry.Deadline = service.Consumer.Retry.Deadline) ∧
      service'.Methods.length = service.Methods.length ∧
      ∀ (t : Nat) (method method' : ConfigurationMethodExpose),
        service.Methods[t]? = some method →
        service'.Methods[t]? = some method' →
        (0 < method.Capped → method'.Capped = method.Capped) ∧
        (method.Stream ≠ "" → method'.Stream = method.Stream) ∧
        (method.TimeoutWaitForNext ≠ "" →
          method'.TimeoutWaitForNext = method.TimeoutWaitForNext) := by
  obtain ⟨-, -, rfl, -⟩ := (cascade_ok_iff conf conf' warnings).mp h
  refine ⟨fun e => ?_, fun e => ?_, fun e => ?_, fun e => ?_, fun e => ?_, fun e => ?_,
    fun e => ?_, fun e => ?_, fun e => ?_, fun e => ?_, ?_, ?_⟩
  · simp [protosDefaults, metricsDefaults, serverDefaults, redisDefaults, e]
  · have : ¬ conf.Redis.JobPoolSize ≤ 0 := by omega
    simp [protosDefaults, metricsDefaults, serverDefaults, redisDefaults, this]
  · simp [protosDefaults, metricsDefaults, serverDefaults, redisDefaults, e]
  · have : conf.Server.Port ≠ 0 := by omega
    simp [protosDefaults, metricsDefaults, serverDefaults, redisDefaults, this]
  · simp [protosDefaults, metricsDefaults, serverDefaults, redisDefaults, e]
  · simp [protosDefaults, metricsDefaults, serverDefaults, redisDefaults, e]
  · have : conf.Metrics.Port ≠ 0 := by omega
    simp [protosDefaults, metricsDefaults, serverDefaults, redisDefaults, this]
  · simp [protosDefaults, metricsDefaults, serverDefaults, redisDefaults, e]
  · simp [protosDefaults, metricsDefaults, serverDefaults, redisDefaults, e]
  · simp [protosDefaults, metricsDefaults, serverDefaults, redisDefaults, e]
  · simp [protosDefaults, metricsDefaults, serverDefaults, redisDefaults]
  intro i service service' hs hs'
  have hs'' : (conf.Protos.Services.map serviceDefaults)[i]? = some service' := hs'
  simp only [List.getElem?_map, hs, Option.map_some', Option.some.injEq] at hs''
  subst hs''
  refine ⟨fun e => ?_, fun e => ?_, fun e => ?_, fun e => ?_, fun e => ?_, ?_, ?_⟩
  · have : service.Consumer.Concurrency ≠ 0 := by omega
    simp [serviceDefaults, consumerDefaults, this]
  · simp [serviceDefaults, consumerDefaults, e]
  · have : ¬ service.Consumer.Retry.Limit ≤ 0 := by omega
    simp [serviceDefaults, consumerDefaults, this]
  · have : ¬ service.Consumer.Retry.PageSize ≤ 0 := by omega
    simp [serviceDefaults, consumerDefaults, this]
  · simp [serviceDefaults, consumerDefaults, e]
  · simp [serviceDefaults]
  intro t method method' hm hm'
  simp only [serviceDefaults, List.getElem?_map, hm, Option.map_some', Option.some.injEq] at hm'
  subst hm'
  refine ⟨fun e => ?_, fun e => ?_, fun e => ?_⟩
  · have : method.Capped ≠ 0 := by omega
    simp [methodDefaults, this]
  · simp [methodDefaults, e]
  · simp [methodDefaults, e]

/-- Witness of C8: the document in which every defaultable field is set is
accepted and its method keeps the stream `"pings"`, which differs from its
name `"Ping"`. -/
theorem cascade_keeps_set_values_witness :
    ∃ conf' warnings method',
      cascade setConfiguration = .ok (conf', warnings) ∧
      conf'.Redis.Prefix = "gateway" ∧
      (conf'.Protos.Services.map (fun service => service.Methods)) = [[method']] ∧
      method'.Stream = "pings" ∧ method'.Name = "Ping" ∧ method'.Capped = 42 :=
  have h := cascade_keeps_set_values setConfiguration
    (protosDefaults (metricsDefaults (serverDefaults (redisDefaults setConfiguration))))
    (serverWarnings setConfiguration) rfl
  have hm := (h.2.2.2.2.2.2.2.2.2.2.2 0 _ _ rfl rfl).2.2.2.2.2.2 0 setMethod
    (methodDefaults setMethod) rfl rfl
  ⟨_, _, methodDefaults setMethod, rfl, h.1 (by decide), rfl, hm.2.1 (by decide), rfl,
    hm.1 (by decide)⟩

/-- C9: section order of the first fatal condition. A configuration whose
Redis section is invalid ends the cascade with the error of the Redis pass,
the same whatever the other sections contain; with an empty node list the
message is "You must specify at least one Redis node", also when the service
list is empty too; an error of the Protos pass is reported only when the
Redis pass accepts; the cascade accepts exactly when the Redis pass and the
Protos pass both accept; the Server and Metrics passes never fail. -/
theorem cascade_section_order :
    (∀ conf conf₂ : Configuration, ¬ RedisValid conf → conf₂.Redis = conf.Redis →
      ∃ e, e.isRedis = true ∧ defaultRedisValues conf = .error e ∧
        cascade conf = .error e ∧ cascade conf₂ = .error e) ∧
    (∀ conf : Configuration, conf.Redis.Nodes = [] →
      ∃ e, cascade conf = .error e ∧
        e.message = "You must specify at least one Redis node") ∧
    (∀ (conf : Configuration) (e : Fatal), cascade conf = .error e → e.isProtos = true →
      (∃ conf₁, defaultRedisValues conf = .ok conf₁) ∧
        defaultProtosValues conf = .error e) ∧
    (∀ conf : Configuration,
      (∃ conf' warnings, cascade conf = .ok (conf', warnings)) ↔
        (∃ conf₁, defaultRedisValues conf = .ok conf₁) ∧
          ∃ conf₂, defaultProtosValues conf = .ok conf₂) ∧
    (∀ conf : Configuration,
      ∃ conf' warnings, defaultServerValues conf = .ok (conf', warnings)) ∧
    (∀ conf : Configuration, ∃ conf', defaultMetricsValues conf = .ok conf') := by
  refine ⟨?_, ?_, ?_, ?_, fun conf => ⟨_, _, defaultServerValues_eq conf⟩,
    fun conf => ⟨_, defaultMetricsValues_eq conf⟩⟩
  · intro conf conf₂ hv hr
    obtain ⟨e, he⟩ := defaultRedisValues_error_of_invalid conf hv
    exact ⟨e, defaultRedisValues_error_isRedis conf e he, he,
      cascade_of_redis_error conf e he,
      cascade_of_redis_error conf₂ e (defaultRedisValues_error_congr conf conf₂ e hr.symm he)⟩
  · intro conf hn
    refine ⟨.noRedisNode, cascade_of_redis_error conf _ ?_, rfl⟩
    rw [defaultRedisValues_eq]
    simp [hn]
  · intro conf e h hp
    rcases cascade_error conf e h with hr | hr
    · have := isRedis_not_isProtos e (defaultRedisValues_error_isRedis conf e hr)
      rw [hp] at this
      exact absurd this (by decide)
    · exact hr
  · intro conf
    constructor
    · rintro ⟨conf', warnings, h⟩
      obtain ⟨hr, hp, -, -⟩ := (cascade_ok_iff conf conf' warnings).mp h
      exact ⟨⟨_, (defaultRedisValues_ok_iff conf _).mpr ⟨hr, rfl⟩⟩,
        ⟨_, (defaultProtosValues_ok_iff conf _).mpr ⟨hp, rfl⟩⟩⟩
    · rintro ⟨⟨conf₁, h1⟩, ⟨conf₂, h2⟩⟩
      exact ⟨_, _, (cascade_ok_iff conf _ _).mpr
        ⟨((defaultRedisValues_ok_iff conf conf₁).mp h1).1,
          ((defaultProtosValues_ok_iff conf conf₂).mp h2).1, rfl, rfl⟩⟩

/-- Witness of C9: a document with no Redis node and no service ends the
cascade with the message about the Redis node. -/
theorem cascade_section_order_witness :
    ∃ e,
      cascade { sampleConfiguration [] "queue" with Protos := { Services := [] } } =
        .error e ∧
      e.message = "You must specify at least one Redis node" :=
  cascade_section_order.2.1
    { sampleConfiguration [] "queue" with Protos := { Services := [] } } rfl

/-- C10: list order of the first fatal condition. When `defaultRedisValues`
fails on a non-empty node list, the node index of its error is the index of
an invalid node before which every node is valid, and for an error about a
sentinel entry the sentinel index is that of an invalid entry of that node
before which every entry is valid. Likewise for `defaultProtosValues` with
the service index and, for an error about a method, the method index. -/
theorem first_fatal_in_list_order :
    (∀ (conf : Configuration) (e : Fatal), defaultRedisValues conf = .error e →
      conf.Redis.Nodes ≠ [] →
      ∃ i node, e.index = some i ∧ conf.Redis.Nodes[i]? = some node ∧ ¬ node.Valid ∧
        (∀ j n, j < i → conf.Redis.Nodes[j]? = some n → n.Valid) ∧
        ∀ t, e.subIndex = some t →
          ∃ sentinel, node.SentinelNodes[t]? = some sentinel ∧ ¬ sentinel.Valid ∧
            ∀ u s, u < t → node.SentinelNodes[u]? = some s → s.Valid) ∧
    (∀ (conf : Configuration) (e : Fatal), defaultProtosValues conf = .error e →
      conf.Protos.Services ≠ [] →
      ∃ i service, e.index = some i ∧ conf.Protos.Services[i]? = some service ∧
        ¬ service.Valid ∧
        (∀ j s, j < i → conf.Protos.Services[j]? = some s → s.Valid) ∧
        ∀ t, e.subIndex = some t →
          ∃ method, service.Methods[t]? = some method ∧ ¬ method.Valid ∧
            ∀ u m, u < t → service.Methods[u]? = some m → m.Valid) := by
  constructor
  · intro conf e h hne
    rcases defaultRedisValues_error conf e h with ⟨h0, -⟩ | ⟨-, k, node, hk, he, hbefore⟩
    · exact absurd h0 hne
    · obtain ⟨hnv, -, hi, ht⟩ := checkNode_error k node e he
      exact ⟨k, node, hi, hk, hnv, hbefore, ht⟩
  · intro conf e h hne
    rcases defaultProtosValues_error conf e h with ⟨h0, -⟩ | ⟨-, k, service, hk, he, hbefore⟩
    · exact absurd h0 hne
    · obtain ⟨hnv, -, hi, ht⟩ := defaultService_error k service e he
      exact ⟨k, service, hi, hk, hnv, hbefore, ht⟩

/-- Witness of C10: a single node with `sentinel` true and no master fails
citing node `0`. -/
theorem first_fatal_in_list_order_witness :
    defaultRedisValues
        (sampleConfiguration [{ sentinelNode with Master := "" }] "queue") =
      .error (.masterName 0) ∧
    (Fatal.masterName 0).message = "Master name must be specified for sentinel, node 0" ∧
    ∃ i node, (Fatal.masterName 0).index = some i ∧
      (sampleConfiguration [{ sentinelNode with Master := "" }] "queue").Redis.Nodes[i]? =
        some node ∧
      ¬ node.Valid :=
  have h := first_fatal_in_list_order.1
    (sampleConfiguration [{ sentinelNode with Master := "" }] "queue") (.masterName 0) rfl
    (by decide)
  ⟨rfl, by decide,
    h.elim fun i hi => hi.elim fun node hn => ⟨i, node, hn.1, hn.2.1, hn.2.2.1⟩⟩

/-- C11, as amended: `defaultServerValues` never fails. It sets
`Server.Address` to `"0.0.0.0"` when empty and `Server.Port` to `4774` when
`0`, keeps both otherwise, and leaves `Server.MaxHeaderListSize` and
`Server.Enable` as given (a `0` stays `0`). It calls `log.Warnf` with the
`maxHeaderListSize` warning if and only if `MaxHeaderListSize` is `0`, and
the logger prints that warning if and only if, moreover, it is not set to
the error level: at `ErrorLevel` nothing is printed. Hence a configuration
with `maxHeaderListSize` `0` whose Redis and Protos sections are valid is
accepted by the cascade, the call to `log.Warnf` being made. -/
theorem defaultServerValues_never_fails :
    (∀ conf : Configuration, ∃ conf' warnings,
      defaultServerValues conf = .ok (conf', warnings) ∧
      (conf.Server.Address = "" → conf'.Server.Address = "0.0.0.0") ∧
      (conf.Server.Address ≠ "" → conf'.Server.Address = conf.Server.Address) ∧
      (conf.Server.Port = 0 → conf'.Server.Port = 4774) ∧
      (conf.Server.Port ≠ 0 → conf'.Server.Port = conf.Server.Port) ∧
      conf'.Server.MaxHeaderListSize = conf.Server.MaxHeaderListSize ∧
      conf'.Server.Enable = conf.Server.Enable ∧
      (conf.Server.MaxHeaderListSize = 0 → warnings = [.maxHeaderListSize 0]) ∧
      (conf.Server.MaxHeaderListSize ≠ 0 → warnings = []) ∧
      ∀ level : Level,
        (emitted level warnings = [.maxHeaderListSize 0] ↔
          conf.Server.MaxHeaderListSize = 0 ∧ level ≠ .ErrorLevel) ∧
        (emitted level warnings = [] ↔
          conf.Server.MaxHeaderListSize ≠ 0 ∨ level = .ErrorLevel)) ∧
    (∀ conf : Configuration, RedisValid conf → ProtosValid conf →
      conf.Server.MaxHeaderListSize = 0 →
      ∃ conf', cascade conf = .ok (conf', [.maxHeaderListSize 0]) ∧
        conf'.Server.MaxHeaderListSize = 0) := by
  constructor
  · intro conf
    refine ⟨serverDefaults conf, serverWarnings conf, defaultServerValues_eq conf,
      fun e => ?_, fun e => ?_, fun e => ?_, fun e => ?_, rfl, rfl, fun e => ?_, fun e => ?_,
      fun level => ?_⟩
    · simp [serverDefaults, e]
    · simp [serverDefaults, e]
    · simp [serverDefaults, e]
    · simp [serverDefaults, e]
    · simp [serverWarnings, e]
    · simp [serverWarnings, e]
    · by_cases e : conf.Server.MaxHeaderListSize = 0 <;> cases level <;>
        simp [emitted, warnEnabled, Level.severity, serverWarnings, e]
  · intro conf hr hp h0
    refine ⟨_, (cascade_ok_iff conf _ _).mpr ⟨hr, hp, rfl, ?_⟩, h0⟩
    simp [serverWarnings, h0]

/-- Witness of C11 as amended: the sample document, whose `maxHeaderListSize`
is `0`, is accepted by the cascade; the Server pass calls `log.Warnf` on it,
and the warning is printed by a logger set to the debug level and dropped by
a logger set to the error level. -/
theorem defaultServerValues_never_fails_witness :
    (∃ conf', cascade (sampleConfiguration [directNode] "queue") =
        .ok (conf', [.maxHeaderListSize 0]) ∧
      conf'.Server.MaxHeaderListSize = 0) ∧
    ∃ conf' warnings,
      defaultServerValues (sampleConfiguration [directNode] "queue") =
        .ok (conf', warnings) ∧
      emitted .DebugLevel warnings = [.maxHeaderListSize 0] ∧
      emitted .ErrorLevel warnings = [] :=
  ⟨defaultServerValues_never_fails.2 (sampleConfiguration [directNode] "queue")
      (by decide) (by decide) rfl,
    (defaultServerValues_never_fails.1 (sampleConfiguration [directNode] "queue")).elim
      fun conf' h => h.elim fun warnings hw =>
        ⟨conf', warnings, hw.1,
          (hw.2.2.2.2.2.2.2.2.2 .DebugLevel).1.mpr ⟨rfl, by decide⟩,
          (hw.2.2.2.2.2.2.2.2.2 .ErrorLevel).2.mpr (Or.inr rfl)⟩⟩

/-- Counterexample to C11 as stated: the sample document has
`maxHeaderListSize` `0`, the Server pass returns on it, and a logger set to
`ErrorLevel`, the level that `loadParameters` selects for `LOG_LEVEL=error`,
prints no warning. -/
theorem defaultServerValues_never_fails_counterexample :
    (sampleConfiguration [directNode] "queue").Server.MaxHeaderListSize = 0 ∧
    loadParameters (sampleEnvironment none (some "error")) =
      .ok { enableHotReload := true, logLevel := .ErrorLevel,
            configurationFile := "c.yaml" } ∧
    ∃ conf',
      defaultServerValues (sampleConfiguration [directNode] "queue") =
        .ok (conf', [.maxHeaderListSize 0]) ∧
      emitted .ErrorLevel [.maxHeaderListSize 0] = [] :=
  ⟨rfl, rfl, serverDefaults (sampleConfiguration [directNode] "queue"), rfl, rfl⟩

/-- C12: `defaultMetricsValues` never fails, and in its result each of the
six Metrics fields is the input value when that is set and its default
otherwise: `"0.0.0.0"`, `"15"`, `2112`, `"/metrics"`, `"/ready"`, `"/live"`;
so all six are set. -/
theorem defaultMetricsValues_never_fails (conf : Configuration) :
    ∃ conf', defaultMetricsValues conf = .ok conf' ∧
      conf'.Metrics.Address =
        (if conf.Metrics.Address ≠ "" then conf.Metrics.Address else "0.0.0.0") ∧
      conf'.Metrics.ShutdownTimeout =
        (if conf.Metrics.ShutdownTimeout ≠ "" then conf.Metrics.ShutdownTimeout else "15") ∧
      conf'.Metrics.Port = (if conf.Metrics.Port ≠ 0 then conf.Metrics.Port else 2112) ∧
      conf'.Metrics.Routes.Metrics =
        (if conf.Metrics.Routes.Metrics ≠ "" then conf.Metrics.Routes.Metrics
          else "/metrics") ∧
      conf'.Metrics.Routes.Readiness =
        (if conf.Metrics.Routes.Readiness ≠ "" then conf.Metrics.Routes.Readiness
          else "/ready") ∧
      conf'.Metrics.Routes.Liveness =
        (if conf.Metrics.Routes.Liveness ≠ "" then conf.Metrics.Routes.Liveness
          else "/live") ∧
      conf'.Metrics.Address ≠ "" ∧ conf'.Metrics.ShutdownTimeout ≠ "" ∧
      conf'.Metrics.Port ≠ 0 ∧ conf'.Metrics.Routes.Metrics ≠ "" ∧
      conf'.Metrics.Routes.Readiness ≠ "" ∧ conf'.Metrics.Routes.Liveness ≠ "" := by
  refine ⟨metricsDefaults conf, defaultMetricsValues_eq conf, ?_, ?_, ?_, ?_, ?_, ?_,
    metricsDefaults_complete conf⟩
  · by_cases h : conf.Metrics.Address = "" <;> simp [metricsDefaults, h]
  · by_cases h : conf.Metrics.ShutdownTimeout = "" <;> simp [metricsDefaults, h]
  · by_cases h : conf.Metrics.Port = 0 <;> simp [metricsDefaults, h]
  · by_cases h : conf.Metrics.Routes.Metrics = "" <;> simp [metricsDefaults, h]
  · by_cases h : conf.Metrics.Routes.Readiness = "" <;> simp [metricsDefaults, h]
  · by_cases h : conf.Metrics.Routes.Liveness = "" <;> simp [metricsDefaults, h]

/-- Witness of C12: on the sample document, whose Metrics section is unset,
the pass returns the six defaults. -/
theorem defaultMetricsValues_never_fails_witness :
    ∃ conf', defaultMetricsValues (sampleConfiguration [directNode] "queue") = .ok conf' ∧
      conf'.Metrics.Address = "0.0.0.0" ∧ conf'.Metrics.ShutdownTimeout = "15" ∧
      conf'.Metrics.Port = 2112 ∧ conf'.Metrics.Routes.Metrics = "/metrics" ∧
      conf'.Metrics.Routes.Readiness = "/ready" ∧
      conf'.Metrics.Routes.Liveness = "/live" :=
  (defaultMetricsValues_never_fails (sampleConfiguration [directNode] "queue")).elim
    fun conf' h =>
      ⟨conf', h.1, h.2.1, h.2.2.1, h.2.2.2.1, h.2.2.2.2.1, h.2.2.2.2.2.1, h.2.2.2.2.2.2.1⟩

/-- C13, as amended: `loadParameters` requires `CONFIGURATION_FILE` to be
present. In every environment in which it is absent `loadParameters` ends in
the fatal condition about that variable; in every environment in which it is
present, the empty string included, `loadParameters` returns parameters
whose `configurationFile` is that value. -/
theorem loadParameters_configurationFile (lookupEnv : String → Option String) :
    (lookupEnv "CONFIGURATION_FILE" = none →
      loadParameters lookupEnv = .error .configurationFileEnv) ∧
    (∀ value, lookupEnv "CONFIGURATION_FILE" = some value →
      ∃ parameters, loadParameters lookupEnv = .ok parameters ∧
        parameters.configurationFile = value) := by
  constructor
  · intro h
    rw [loadParameters_eq, h]
  · intro value h
    exact ⟨_, (loadParameters_ok_iff lookupEnv _).mpr ⟨value, h, rfl⟩, rfl⟩

/-- Witness of C13 as amended: with the variable absent the fatal condition
is reached, with the variable set to a path that path is returned. -/
theorem loadParameters_configurationFile_witness :
    loadParameters (environment [("LOG_LEVEL", "info")]) = .error .configurationFileEnv ∧
    ∃ parameters,
      loadParameters (environment [("CONFIGURATION_FILE", "/etc/polygate.yaml")]) =
        .ok parameters ∧
      parameters.configurationFile = "/etc/polygate.yaml" :=
  ⟨(loadParameters_configurationFile (environment [("LOG_LEVEL", "info")])).1 rfl,
    (loadParameters_configurationFile
      (environment [("CONFIGURATION_FILE", "/etc/polygate.yaml")])).2 _ rfl⟩

/-- Counterexample to C13 as stated: in the environment in which
`CONFIGURATION_FILE` is set to the empty string, `loadParameters` does not
end in a fatal condition: it returns parameters whose `configurationFile` is
empty. -/
theorem loadParameters_configurationFile_counterexample :
    environment [("CONFIGURATION_FILE", "")] "CONFIGURATION_FILE" = some "" ∧
    loadParameters (environment [("CONFIGURATION_FILE", "")]) =
      .ok { enableHotReload := true, logLevel := .DebugLevel, configurationFile := "" } :=
  ⟨rfl, rfl⟩

/-- C14: whenever `loadParameters` returns, `enableHotReload` is false if and
only if `ENABLE_HOT_RELOAD` is present and exactly `"false"`; for every other
value and when the variable is absent it is true. -/
theorem loadParameters_enableHotReload (lookupEnv : String → Option String)
    (parameters : Parameters) (h : loadParameters lookupEnv = .ok parameters) :
    (parameters.enableHotReload = false ↔ lookupEnv "ENABLE_HOT_RELOAD" = some "false") ∧
    (lookupEnv "ENABLE_HOT_RELOAD" ≠ some "false" → parameters.enableHotReload = true) := by
  obtain ⟨file, -, rfl⟩ := (loadParameters_ok_iff lookupEnv parameters).mp h
  cases hv : lookupEnv "ENABLE_HOT_RELOAD" with
  | none => simp [hotReloadOf]
  | some value =>
    by_cases hf : value = "false"
    · simp [hotReloadOf, hf]
    · simp [hotReloadOf, hf]

/-- Witness of C14: `"false"` disables hot reload; `"False"`, `"0"`,
`"FALSE"`, the empty string and the absence of the variable leave it
enabled. -/
theorem loadParameters_enableHotReload_witness :
    (∃ parameters, loadParameters (sampleEnvironment (some "false") none) = .ok parameters ∧
      parameters.enableHotReload = false) ∧
    (∃ parameters, loadParameters (sampleEnvironment (some "False") none) = .ok parameters ∧
      parameters.enableHotReload = true) ∧
    (∃ parameters, loadParameters (sampleEnvironment (some "0") none) = .ok parameters ∧
      parameters.enableHotReload = true) ∧
    (∃ parameters, loadParameters (sampleEnvironment (some "FALSE") none) = .ok parameters ∧
      parameters.enableHotReload = true) ∧
    (∃ parameters, loadParameters (sampleEnvironment (some "") none) = .ok parameters ∧
      parameters.enableHotReload = true) ∧
    (∃ parameters, loadParameters (sampleEnvironment none none) = .ok parameters ∧
      parameters.enableHotReload = true) :=
  ⟨⟨_, rfl,
      (loadParameters_enableHotReload (sampleEnvironment (some "false") none) _ rfl).1.mpr rfl⟩,
    ⟨_, rfl,
      (loadParameters_enableHotReload (sampleEnvironment (some "False") none) _ rfl).2
        (by decide)⟩,
    ⟨_, rfl,
      (loadParameters_enableHotReload (sampleEnvironment (some "0") none) _ rfl).2
        (by decide)⟩,
    ⟨_, rfl,
      (loadParameters_enableHotReload (sampleEnvironment (some "FALSE") none) _ rfl).2
        (by decide)⟩,
    ⟨_, rfl,
      (loadParameters_enableHotReload (sampleEnvironment (some "") none) _ rfl).2
        (by decide)⟩,
    ⟨_, rfl,
      (loadParameters_enableHotReload (sampleEnvironment none none) _ rfl).2 (by decide)⟩⟩

/-- C15: whenever `loadParameters` returns, `logLevel` is info when
`LOG_LEVEL` is `"info"`, warn when it is `"warn"`, error when it is
`"error"`, and debug in every other case, the variable being absent or
holding any other string; and whether `loadParameters` returns depends on
`CONFIGURATION_FILE` alone, so no value of `LOG_LEVEL` makes it fail. -/
theorem loadParameters_logLevel (lookupEnv : String → Option String) :
    (∀ parameters, loadParameters lookupEnv = .ok parameters →
      (lookupEnv "LOG_LEVEL" = some "info" → parameters.logLevel = .InfoLevel) ∧
      (lookupEnv "LOG_LEVEL" = some "warn" → parameters.logLevel = .WarnLevel) ∧
      (lookupEnv "LOG_LEVEL" = some "error" → parameters.logLevel = .ErrorLevel) ∧
      (lookupEnv "LOG_LEVEL" ≠ some "info" → lookupEnv "LOG_LEVEL" ≠ some "warn" →
        lookupEnv "LOG_LEVEL" ≠ some "error" → parameters.logLevel = .DebugLevel)) ∧
    ((∃ parameters, loadParameters lookupEnv = .ok parameters) ↔
      ∃ value, lookupEnv "CONFIGURATION_FILE" = some value) := by
  constructor
  · intro parameters h
    obtain ⟨file, -, rfl⟩ := (loadParameters_ok_iff lookupEnv parameters).mp h
    refine ⟨fun e => ?_, fun e => ?_, fun e => ?_, fun e1 e2 e3 => ?_⟩
    · simp [e, logLevelOf]
    · simp [e, logLevelOf]
    · simp [e, logLevelOf]
    · cases hv : lookupEnv "LOG_LEVEL" with
      | none => rfl
      | some value =>
        rw [hv] at e1 e2 e3
        simp only [ne_eq, Option.some.injEq] at e1 e2 e3
        simp [logLevelOf, e1, e2, e3]
  · constructor
    · rintro ⟨parameters, h⟩
      obtain ⟨file, hf, -⟩ := (loadParameters_ok_iff lookupEnv parameters).mp h
      exact ⟨file, hf⟩
    · rintro ⟨value, hv⟩
      exact ⟨_, (loadParameters_ok_iff lookupEnv _).mpr ⟨value, hv, rfl⟩⟩

/-- Witness of C15: `"warn"` selects the warn level, `"INFO"`, `"trace"`
and `"debug"` leave the debug level, and `loadParameters` returns in each
case. -/
theorem loadParameters_logLevel_witness :
    (∃ parameters, loadParameters (sampleEnvironment none (some "warn")) = .ok parameters ∧
      parameters.logLevel = .WarnLevel) ∧
    (∃ parameters, loadParameters (sampleEnvironment none (some "INFO")) = .ok parameters ∧
      parameters.logLevel = .DebugLevel) ∧
    (∃ parameters, loadParameters (sampleEnvironment none (some "trace")) = .ok parameters ∧
      parameters.logLevel = .DebugLevel) ∧
    (∃ parameters, loadParameters (sampleEnvironment none (some "debug")) = .ok parameters ∧
      parameters.logLevel = .DebugLevel) :=
  ⟨⟨_, rfl,
      ((loadParameters_logLevel (sampleEnvironment none (some "warn"))).1 _ rfl).2.1 rfl⟩,
    ⟨_, rfl,
      ((loadParameters_logLevel (sampleEnvironment none (some "INFO"))).1 _ rfl).2.2.2
        (by decide) (by decide) (by decide)⟩,
    ⟨_, rfl,
      ((loadParameters_logLevel (sampleEnvironment none (some "trace"))).1 _ rfl).2.2.2
        (by decide) (by decide) (by decide)⟩,
    ⟨_, rfl,
      ((loadParameters_logLevel (sampleEnvironment none (some "debug"))).1 _ rfl).2.2.2
        (by decide) (by decide) (by decide)⟩⟩

/-- C16: when `defaultRedisValues` accepts, the resulting `Redis.JobPoolSize`
is strictly positive: it is the input when the input is strictly positive and
`5` when the input is zero or negative; and the resulting `Redis.Prefix` is
the input when that is non-empty and `"polygate"` when it is empty. -/
theorem defaultRedisValues_jobPoolSize (conf conf' : Configuration)
    (h : defaultRedisValues conf = .ok conf') :
    0 < conf'.Redis.JobPoolSize ∧
    (0 < conf.Redis.JobPoolSize → conf'.Redis.JobPoolSize = conf.Redis.JobPoolSize) ∧
    (conf.Redis.JobPoolSize ≤ 0 → conf'.Redis.JobPoolSize = 5) ∧
    (conf.Redis.Prefix ≠ "" → conf'.Redis.Prefix = conf.Redis.Prefix) ∧
    (conf.Redis.Prefix = "" → conf'.Redis.Prefix = "polygate") := by
  obtain ⟨-, rfl⟩ := (defaultRedisValues_ok_iff conf conf').mp h
  refine ⟨?_, fun e => ?_, fun e => ?_, fun e => ?_, fun e => ?_⟩
  · show 0 < (if conf.Redis.JobPoolSize ≤ 0 then 5 else conf.Redis.JobPoolSize)
    split
    · decide
    · omega
  · have : ¬ conf.Redis.JobPoolSize ≤ 0 := by omega
    simp [redisDefaults, this]
  · simp [redisDefaults, e]
  · simp [redisDefaults, e]
  · simp [redisDefaults, e]

/-- Witness of C16: a job pool size of `-3` and an empty prefix become `5`
and `"polygate"`. -/
theorem defaultRedisValues_jobPoolSize_witness :
    ∃ conf',
      defaultRedisValues
        { setConfiguration with
          Redis := { Prefix := "", JobPoolSize := -3, Nodes := [directNode] } } = .ok conf' ∧
      conf'.Redis.JobPoolSize = 5 ∧ conf'.Redis.Prefix = "polygate" :=
  have h := defaultRedisValues_jobPoolSize
    { setConfiguration with
      Redis := { Prefix := "", JobPoolSize := -3, Nodes := [directNode] } }
    (redisDefaults
      { setConfiguration with
        Redis := { Prefix := "", JobPoolSize := -3, Nodes := [directNode] } }) rfl
  ⟨_, rfl, h.2.2.1 (by decide), h.2.2.2.2 rfl⟩

/-- C17: frame of the cascade. When the cascade accepts, everything that has
no default is the same in input and output: the `Redis.Nodes` list,
`Client.Enable`, `Server.Enable`, `Server.MaxHeaderListSize`, the number and
order of the services and of the methods of each service, every service's
`Service` name, `Client.Address` and `Client.Port`, and every method's `Name`
and `Pattern`. And each pass changes only its own section:
`defaultRedisValues` nothing outside `Redis.Prefix` and `Redis.JobPoolSize`,
`defaultServerValues` nothing outside `Server`, `defaultMetricsValues`
nothing outside `Metrics`, `defaultProtosValues` nothing outside `Protos`. -/
theorem cascade_frame :
    (∀ (conf conf' : Configuration) (warnings : List Warning),
      cascade conf = .ok (conf', warnings) →
      conf'.Redis.Nodes = conf.Redis.Nodes ∧ conf'.Client.Enable = conf.Client.Enable ∧
      conf'.Server.Enable = conf.Server.Enable ∧
      conf'.Server.MaxHeaderListSize = conf.Server.MaxHeaderListSize ∧
      conf'.Protos.Services.length = conf.Protos.Services.length ∧
      ∀ (i : Nat) (service service' : ConfigurationServiceExpose),
        conf.Protos.Services[i]? = some service →
        conf'.Protos.Services[i]? = some service' →
        service'.Service = service.Service ∧
        service'.Client.Address = service.Client.Address ∧
        service'.Client.Port = service.Client.Port ∧
        service'.Methods.length = service.Methods.length ∧
        ∀ (t : Nat) (method method' : ConfigurationMethodExpose),
          service.Methods[t]? = some method →
          service'.Methods[t]? = some method' →
          method'.Name = method.Name ∧ method'.Pattern = method.Pattern) ∧
    (∀ conf conf' : Configuration, defaultRedisValues conf = .ok conf' →
      conf'.Redis.Nodes = conf.Redis.Nodes ∧ conf'.Server = conf.Server ∧
      conf'.Client = conf.Client ∧ conf'.Metrics = conf.Metrics ∧
      conf'.Protos = conf.Protos) ∧
    (∀ (conf conf' : Configuration) (warnings : List Warning),
      defaultServerValues conf = .ok (conf', warnings) →
      conf'.Redis = conf.Redis ∧ conf'.Client = conf.Client ∧
      conf'.Metrics = conf.Metrics ∧ conf'.Protos = conf.Protos) ∧
    (∀ conf conf' : Configuration, defaultMetricsValues conf = .ok conf' →
      conf'.Redis = conf.Redis ∧ conf'.Server = conf.Server ∧
      conf'.Client = conf.Client ∧ conf'.Protos = conf.Protos) ∧
    (∀ conf conf' : Configuration, defaultProtosValues conf = .ok conf' →
      conf'.Redis = conf.Redis ∧ conf'.Server = conf.Server ∧
      conf'.Client = conf.Client ∧ conf'.Metrics = conf.Metrics) := by
  refine ⟨?_, ?_, ?_, ?_, ?_⟩
  · intro conf conf' warnings h
    obtain ⟨-, -, rfl, -⟩ := (cascade_ok_iff conf conf' warnings).mp h
    refine ⟨rfl, rfl, rfl, rfl, ?_, ?_⟩
    · simp [protosDefaults, metricsDefaults, serverDefaults, redisDefaults]
    intro i service service' hs hs'
    have hs'' : (conf.Protos.Services.map serviceDefaults)[i]? = some service' := hs'
    simp only [List.getElem?_map, hs, Option.map_some', Option.some.injEq] at hs''
    subst hs''
    refine ⟨rfl, rfl, rfl, by simp [serviceDefaults], ?_⟩
    intro t method method' hm hm'
    simp only [serviceDefaults, List.getElem?_map, hm, Option.map_some',
      Option.some.injEq] at hm'
    subst hm'
    exact ⟨rfl, rfl⟩
  · intro conf conf' h
    obtain ⟨-, rfl⟩ := (defaultRedisValues_ok_iff conf conf').mp h
    exact ⟨rfl, rfl, rfl, rfl, rfl⟩
  · intro conf conf' warnings h
    rw [defaultServerValues_eq] at h
    simp only [Except.ok.injEq, Prod.mk.injEq] at h
    obtain ⟨rfl, -⟩ := h
    exact ⟨rfl, rfl, rfl, rfl⟩
  · intro conf conf' h
    rw [defaultMetricsValues_eq] at h
    simp only [Except.ok.injEq] at h
    subst h
    exact ⟨rfl, rfl, rfl, rfl⟩
  · intro conf conf' h
    obtain ⟨-, rfl⟩ := (defaultProtosValues_ok_iff conf conf').mp h
    exact ⟨rfl, rfl, rfl, rfl⟩

/-- Witness of C17: the sample document with three nodes is accepted and its
node list, with the unset fields of each node, is returned as it was given,
although every defaultable field of the document changes. -/
theorem cascade_frame_witness :
    ∃ conf' warnings,
      cascade (sampleConfiguration [directNode, sentinelNode, strayNode] "queue") =
        .ok (conf', warnings) ∧
      conf'.Redis.Nodes = [directNode, sentinelNode, strayNode] ∧
      conf'.Server.MaxHeaderListSize = 0 ∧ conf'.Redis.Prefix = "polygate" :=
  have h := cascade_frame.1
    (sampleConfiguration [directNode, sentinelNode, strayNode] "queue")
    (protosDefaults (metricsDefaults (serverDefaults (redisDefaults
      (sampleConfiguration [directNode, sentinelNode, strayNode] "queue")))))
    (serverWarnings (sampleConfiguration [directNode, sentinelNode, strayNode] "queue")) rfl
  ⟨_, _, rfl, h.1, h.2.2.2.1, rfl⟩

/-- C18: acceptance depends only on the required fields. Two configurations
that have the same `Redis.Nodes` list and whose services agree, in order, on
`Service`, `Client.Address`, `Client.Port`, the number of methods and every
method's `Name` and `Pattern`, are both accepted by the cascade or both
rejected with the same fatal condition, hence the same message, however
they differ elsewhere. -/
theorem cascade_depends_on_required_fields (conf conf₂ : Configuration)
    (hn : conf.Redis.Nodes = conf₂.Redis.Nodes)
    (hs : conf.Protos.Services.map requiredOfService =
      conf₂.Protos.Services.map requiredOfService) :
    fatalOf (cascade conf) = fatalOf (cascade conf₂) ∧
    ((∃ conf' warnings, cascade conf = .ok (conf', warnings)) ↔
      ∃ conf' warnings, cascade conf₂ = .ok (conf', warnings)) ∧
    (∀ e, cascade conf = .error e ↔ cascade conf₂ = .error e) ∧
    (∀ e e₂, cascade conf = .error e → cascade conf₂ = .error e₂ →
      e.message = e₂.message) := by
  have key : fatalOf (cascade conf) = fatalOf (cascade conf₂) := by
    rw [fatalOf_cascade, fatalOf_cascade, fatalOf_defaultRedisValues_congr conf conf₂ hn,
      fatalOf_defaultProtosValues_congr conf conf₂ hs]
  have herr : ∀ e, cascade conf = .error e ↔ cascade conf₂ = .error e := fun e => by
    rw [← fatalOf_eq_some_iff, ← fatalOf_eq_some_iff, key]
  refine ⟨key, ?_, herr, ?_⟩
  · have h := fatalOf_eq_none_iff (cascade conf)
    have h₂ := fatalOf_eq_none_iff (cascade conf₂)
    rw [key] at h
    constructor
    · rintro ⟨conf', warnings, hc⟩
      obtain ⟨⟨c, w⟩, hr⟩ := h₂.mp (h.mpr ⟨_, hc⟩)
      exact ⟨c, w, hr⟩
    · rintro ⟨conf', warnings, hc⟩
      obtain ⟨⟨c, w⟩, hr⟩ := h.mp (h₂.mpr ⟨_, hc⟩)
      exact ⟨c, w, hr⟩
  · intro e e₂ he he₂
    have := (herr e).mp he
    rw [he₂] at this
    simp only [Except.error.injEq] at this
    rw [this]

/-- Witness of C18: the sample document, in which every defaultable field is
unset, and the document in which every one is set have the same required
fields and are both accepted; with the node list emptied they are both
rejected with the same fatal condition. -/
theorem cascade_depends_on_required_fields_witness :
    sampleConfiguration [directNode] "fireAndForget" ≠ setConfiguration ∧
    fatalOf (cascade (sampleConfiguration [directNode] "fireAndForget")) =
      fatalOf (cascade setConfiguration) ∧
    fatalOf (cascade setConfiguration) = none ∧
    fatalOf (cascade (sampleConfiguration [] "fireAndForget")) =
      fatalOf (cascade
        { setConfiguration with Redis := { setConfiguration.Redis with Nodes := [] } }) ∧
    fatalOf (cascade (sampleConfiguration [] "fireAndForget")) = some .noRedisNode :=
  ⟨by decide,
    (cascade_depends_on_required_fields
      (sampleConfiguration [directNode] "fireAndForget") setConfiguration rfl rfl).1,
    rfl,
    (cascade_depends_on_required_fields (sampleConfiguration [] "fireAndForget")
      { setConfiguration with Redis := { setConfiguration.Redis with Nodes := [] } }
      rfl rfl).1,
    rfl⟩

/-- C19: precedence of the checks inside one item. A direct node with an
empty `Host` fails with the address error whatever its `Port`, the port
error needing a non-empty `Host`; likewise for a sentinel entry; a sentinel
node with an empty `Master` fails with the master error whatever its
`SentinelNodes`. Within a service the checks run in the order service name,
client address, client port, non-empty method list, methods: each error
needs all the earlier checks to pass. Within a method an empty `Name` is
reported before an invalid `Pattern`. -/
theorem check_precedence :
    (∀ (i : Nat) (node : Node), node.Sentinel = false → node.Host = "" →
      checkNode i node = .error (.nodeAddress i)) ∧
    (∀ (i : Nat) (node : Node), node.Sentinel = false → node.Host ≠ "" → node.Port = 0 →
      checkNode i node = .error (.nodePort i)) ∧
    (∀ (i t : Nat) (sentinel : SentinelNode) (rest : List SentinelNode),
      sentinel.Host = "" →
      checkSentinelNodes i t (sentinel :: rest) = .error (.sentinelAddress t i)) ∧
    (∀ (i t : Nat) (sentinel : SentinelNode) (rest : List SentinelNode),
      sentinel.Host ≠ "" → sentinel.Port = 0 →
      checkSentinelNodes i t (sentinel :: rest) = .error (.sentinelPort t i)) ∧
    (∀ (i : Nat) (node : Node), node.Sentinel = true → node.Master = "" →
      checkNode i node = .error (.masterName i)) ∧
    (∀ (i : Nat) (node : Node), node.Sentinel = true → node.Master ≠ "" →
      node.SentinelNodes = [] → checkNode i node = .error (.noSentinelNode i)) ∧
    (∀ (i : Nat) (service : ConfigurationServiceExpose), service.Service = "" →
      defaultService i service = .error (.serviceName i)) ∧
    (∀ (i : Nat) (service : ConfigurationServiceExpose), service.Service ≠ "" →
      service.Client.Address = "" →
      defaultService i service = .error (.clientAddress i)) ∧
    (∀ (i : Nat) (service : ConfigurationServiceExpose), service.Service ≠ "" →
      service.Client.Address ≠ "" → service.Client.Port = 0 →
      defaultService i service = .error (.clientPort i)) ∧
    (∀ (i : Nat) (service : ConfigurationServiceExpose), service.Service ≠ "" →
      service.Client.Address ≠ "" → service.Client.Port ≠ 0 → service.Methods = [] →
      defaultService i service = .error (.noMethod i)) ∧
    (∀ (i t : Nat) (service : ConfigurationServiceExpose) (e : Fatal),
      defaultService i service = .error e → e.subIndex = some t →
      service.Service ≠ "" ∧ service.Client.Address ≠ "" ∧ service.Client.Port ≠ 0 ∧
        service.Methods ≠ []) ∧
    (∀ (i t : Nat) (method : ConfigurationMethodExpose), method.Name = "" →
      defaultMethod i t method = .error (.methodName i t)) ∧
    (∀ (i t : Nat) (method : ConfigurationMethodExpose), method.Name ≠ "" →
      ¬ (method.Pattern = "queue" ∨ method.Pattern = "fireAndForget") →
      defaultMethod i t method = .error (.methodPattern i t)) := by
  refine ⟨?_, ?_, ?_, ?_, ?_, ?_, ?_, ?_, ?_, ?_, ?_, ?_, ?_⟩
  · intro i node hs hh
    simp [checkNode, hs, utf8ByteSize_eq_zero_iff, hh]
  · intro i node hs hh hp
    simp [checkNode, hs, utf8ByteSize_eq_zero_iff, hh, hp]
  · intro i t sentinel rest hh
    simp [checkSentinelNodes, utf8ByteSize_eq_zero_iff, hh]
  · intro i t sentinel rest hh hp
    simp [checkSentinelNodes, utf8ByteSize_eq_zero_iff, hh, hp]
  · intro i node hs hm
    simp [checkNode, hs, utf8ByteSize_eq_zero_iff, hm]
  · intro i node hs hm hn
    simp [checkNode, hs, utf8ByteSize_eq_zero_iff, hm, hn]
  · intro i service h1
    rw [defaultService_eq]
    simp [h1]
  · intro i service h1 h2
    rw [defaultService_eq]
    simp [h1, h2]
  · intro i service h1 h2 h3
    rw [defaultService_eq]
    simp [h1, h2, h3]
  · intro i service h1 h2 h3 h4
    rw [defaultService_eq]
    simp [h1, h2, h3, h4]
  · intro i t service e h ht
    rw [defaultService_eq] at h
    by_cases h1 : service.Service = ""
    · simp only [h1, if_true, Except.error.injEq] at h
      subst h
      simp [Fatal.subIndex] at ht
    by_cases h2 : service.Client.Address = ""
    · simp only [h1, h2, if_true, if_false, Except.error.injEq] at h
      subst h
      simp [Fatal.subIndex] at ht
    by_cases h3 : service.Client.Port = 0
    · simp only [h1, h2, h3, if_true, if_false, Except.error.injEq] at h
      subst h
      simp [Fatal.subIndex] at ht
    by_cases h4 : service.Methods = []
    · simp only [h1, h2, h3, h4, if_true, if_false, Except.error.injEq] at h
      subst h
      simp [Fatal.subIndex] at ht
    exact ⟨h1, h2, h3, h4⟩
  · intro i t method h1
    rw [defaultMethod_eq]
    simp [h1]
  · intro i t method h1 h2
    rw [defaultMethod_eq]
    simp [h1, PatternValid, h2]

/-- Witness of C19: a direct node with an empty host and port `0` makes the
Redis pass fail with the address message, and a sentinel node with neither
master nor sentinel entries with the master message. -/
theorem check_precedence_witness :
    checkNode 0 { directNode with Host := "", Port := 0 } = .error (.nodeAddress 0) ∧
    defaultRedisValues
        (sampleConfiguration [{ directNode with Host := "", Port := 0 }] "queue") =
      .error (.nodeAddress 0) ∧
    (Fatal.nodeAddress 0).message = "Redis node 0 must have a valid address" ∧
    checkNode 0 { sentinelNode with Master := "", SentinelNodes := [] } =
      .error (.masterName 0) :=
  ⟨check_precedence.1 0 { directNode with Host := "", Port := 0 } rfl rfl, rfl, by decide,
    check_precedence.2.2.2.2.1 0 { sentinelNode with Master := "", SentinelNodes := [] }
      rfl rfl⟩

end Polygate
